import Mathlib

/-!
Verification of the BigQuery exporter core (row projection engine, JSON
projector, value coercion layer and dynamic row encoder) of the
`glacion/opentelemetry-collector-contrib` repository, against its
natural-language specification.

The Go sources are shallowly embedded: Go `float64` values are modelled by
`GoFloat` (finite values carry their decimal rendering as an integer payload;
the NaN and infinity cases are kept separate because `encoding/json` refuses
to serialize them); `time.Time` is modelled by `GoTime` (nanoseconds since
the Unix epoch); the dynamic type `bigquery.Value` (`any`) is modelled by the
closed variant type `BQValue` listing the runtime types the coercion layer
inspects; rows (`map[string]bigquery.Value`) are association lists with
replace-on-set semantics.  `encoding/json.Marshal` is modelled by a canonical
JSON renderer over the `Jval` tree: Go marshals `map[string]any` with keys in
sorted order, so object literals below are written in sorted-key order and
attribute maps are sorted before rendering; `json.Marshal` fails exactly when
the value contains a non-finite float, which `marshalJSON` (whose Go body is
`b, _ := json.Marshal(v); return string(b)`) silently turns into the empty
string.
-/

namespace OtelBQ

/-- Model of a Go `float64`: either a finite value, carried by the integer
payload that stands for its decimal rendering, or one of the non-finite
values that `encoding/json` refuses to serialize. -/
inductive GoFloat where
  | finite (val : Int)
  | nan
  | posInf
  | negInf
deriving DecidableEq, Repr

def GoFloat.isFinite : GoFloat → Bool
  | .finite _ => true
  | _ => false

/-- Model of a Go `time.Time`: nanoseconds since the Unix epoch. -/
structure GoTime where
  nanos : Nat
deriving DecidableEq, Repr

/-- Go `time.Time.UnixMicro`. -/
def GoTime.unixMicro (t : GoTime) : Int :=
  (t.nanos / 1000 : Nat)

/-- Go `time.Time.Format(time.RFC3339Nano)`: the exact textual layout is
produced by the external `time` library; it is modelled here as an injective
rendering of the instant, which is all the claims depend on. -/
def formatRFC3339Nano (t : GoTime) : String :=
  toString t.nanos

/-- Model of the dynamic type `bigquery.Value` (`any`): the closed set of
runtime types that can reach the coercion layer.  `null` is Go `nil`. -/
inductive BQValue where
  | null
  | str (s : String)
  | bool (b : Bool)
  | int (n : Int)
  | int64 (n : Int)
  | int32 (n : Int)
  | uint64 (n : Nat)
  | uint32 (n : Nat)
  | uint16 (n : Nat)
  | float64 (f : GoFloat)
  | float32 (f : GoFloat)
  | time (t : GoTime)
deriving DecidableEq, Repr

/-- The Go `%T` rendering of a `bigquery.Value`, used in coercion error
messages. -/
def BQValue.typeName : BQValue → String
  | .null => "<nil>"
  | .str _ => "string"
  | .bool _ => "bool"
  | .int _ => "int"
  | .int64 _ => "int64"
  | .int32 _ => "int32"
  | .uint64 _ => "uint64"
  | .uint32 _ => "uint32"
  | .uint16 _ => "uint16"
  | .float64 _ => "float64"
  | .float32 _ => "float32"
  | .time _ => "time.Time"

/-- JSON values as built by the mapping code before `json.Marshal`. -/
inductive Jval where
  | null
  | bool (b : Bool)
  | int (n : Int)
  | double (d : GoFloat)
  | str (s : String)
  | arr (xs : List Jval)
  | obj (kvs : List (String × Jval))
deriving Repr

mutual

/-- True iff the value contains no non-finite float, i.e. iff
`encoding/json.Marshal` succeeds on it. -/
def Jval.allFinite : Jval → Bool
  | .double d => d.isFinite
  | .arr xs => jlistAllFinite xs
  | .obj kvs => jobjAllFinite kvs
  | _ => true

def jlistAllFinite : List Jval → Bool
  | [] => true
  | x :: xs => x.allFinite && jlistAllFinite xs

def jobjAllFinite : List (String × Jval) → Bool
  | [] => true
  | kv :: kvs => kv.2.allFinite && jobjAllFinite kvs

end

/-- Lower-case hex digit. -/
def hexDigit (n : Nat) : Char :=
  if n < 10 then Char.ofNat (48 + n) else Char.ofNat (87 + n)

/-- Escaping of one character inside a JSON string, following
`encoding/json` (which additionally HTML-escapes `<`, `>` and `&`). -/
def jsonEscapeChar (c : Char) : String :=
  if c = '"' then "\\\""
  else if c = '\\' then "\\\\"
  else if c = '\n' then "\\n"
  else if c = '\r' then "\\r"
  else if c = '\t' then "\\t"
  else if c = '<' then "\\u003c"
  else if c = '>' then "\\u003e"
  else if c = '&' then "\\u0026"
  else if c.toNat < 32 then
    "\\u00" ++ String.mk [hexDigit (c.toNat / 16 % 16), hexDigit (c.toNat % 16)]
  else String.singleton c

/-- A JSON string literal: quoted and escaped. -/
def jsonQuote (s : String) : String :=
  "\"" ++ String.join (s.toList.map jsonEscapeChar) ++ "\""

mutual

/-- Canonical rendering of a JSON value, matching the compact output of
`encoding/json.Marshal` (object keys are assumed already sorted; a
non-finite double renders as `null`, a case that is unreachable under
`marshalJSON`, which checks `allFinite` first as `json.Marshal` errors
there). -/
def Jval.render : Jval → String
  | .null => "null"
  | .bool b => if b then "true" else "false"
  | .int n => toString n
  | .double d =>
    match d with
    | .finite v => toString v
    | _ => "null"
  | .str s => jsonQuote s
  | .arr xs => "[" ++ jlistRender xs ++ "]"
  | .obj kvs => "\x7b" ++ jobjRender kvs ++ "\x7d"

def jlistRender : List Jval → String
  | [] => ""
  | [x] => x.render
  | x :: y :: xs => x.render ++ "," ++ jlistRender (y :: xs)

def jobjRender : List (String × Jval) → String
  | [] => ""
  | [kv] => jsonQuote kv.1 ++ ":" ++ kv.2.render
  | kv :: kv2 :: kvs => jsonQuote kv.1 ++ ":" ++ kv.2.render ++ "," ++ jobjRender (kv2 :: kvs)

end

/-- A string is syntactically valid JSON text when it is the rendering of
some (serializable) JSON value. -/
def IsJsonText (s : String) : Prop :=
  ∃ j : Jval, j.allFinite = true ∧ j.render = s

/-- Source `marshalJSON`: `b, _ := json.Marshal(v); return string(b)`.
`json.Marshal` fails exactly on non-finite floats, and the discarded error
leaves the empty string. -/
def marshalJSON (v : Jval) : String :=
  if v.allFinite then v.render else ""

/-- Base64 alphabet, used because `encoding/json` renders `[]byte` as a
base64 string. -/
def base64Char (n : Nat) : Char :=
  "ABCDEFGHIJKLMNOPQRSTUVWXYZabcdefghijklmnopqrstuvwxyz0123456789+/".toList.getD n '='

/-- Standard base64 of a byte sequence (Go `base64.StdEncoding`). -/
def base64Encode : List Nat → String
  | [] => ""
  | [b] =>
    let b := b % 256
    String.mk [base64Char (b / 4), base64Char (b % 4 * 16), '=', '=']
  | [b1, b2] =>
    let b1 := b1 % 256
    let b2 := b2 % 256
    String.mk [base64Char (b1 / 4), base64Char (b1 % 4 * 16 + b2 / 16),
      base64Char (b2 % 16 * 4), '=']
  | b1 :: b2 :: b3 :: rest =>
    let b1 := b1 % 256
    let b2 := b2 % 256
    let b3 := b3 % 256
    String.mk [base64Char (b1 / 4), base64Char (b1 % 4 * 16 + b2 / 16),
      base64Char (b2 % 16 * 4 + b3 / 64), base64Char (b3 % 64)] ++ base64Encode rest

/-- Model of a `pcommon.Value` (OTLP attribute value / log body). -/
inductive AnyValue where
  | str (s : String)
  | int (n : Int)
  | double (d : GoFloat)
  | bool (b : Bool)
  | bytes (bs : List Nat)
  | arr (xs : List AnyValue)
  | map (kvs : List (String × AnyValue))
  | empty

/-- A `pcommon.Map` (attribute collection), keys in source iteration
order. -/
abbrev AttrMap := List (String × AnyValue)

/-- Code-point-wise string comparison, the order in which `encoding/json`
emits Go map keys. -/
def charListLe : List Char → List Char → Bool
  | [], _ => true
  | _ :: _, [] => false
  | c1 :: r1, c2 :: r2 =>
    if c1.toNat < c2.toNat then true
    else if c2.toNat < c1.toNat then false
    else charListLe r1 r2

def strLe (a b : String) : Bool :=
  charListLe a.toList b.toList

/-- Insertion of one key/value pair into a key-sorted association list,
used to model `encoding/json`'s sorted rendering of Go map keys. -/
def insertByKey {α : Type} (kv : String × α) : List (String × α) → List (String × α)
  | [] => [kv]
  | kv2 :: rest => if strLe kv.1 kv2.1 then kv :: kv2 :: rest else kv2 :: insertByKey kv rest

/-- Sort an association list by key (as `encoding/json` does when it
marshals a `map[string]any`). -/
def sortByKey {α : Type} (l : List (String × α)) : List (String × α) :=
  l.foldr insertByKey []

mutual

/-- The JSON value that `pcommon.Value.AsRaw` followed by `json.Marshal`
produces: maps become objects (keys sorted by the marshaller), slices become
arrays, bytes become base64 strings, an unset value becomes `null`. -/
def AnyValue.toJval : AnyValue → Jval
  | .str s => .str s
  | .int n => .int n
  | .double d => .double d
  | .bool b => .bool b
  | .bytes bs => .str (base64Encode bs)
  | .arr xs => .arr (anyListToJval xs)
  | .map kvs => .obj (sortByKey (anyMapToJval kvs))
  | .empty => .null

def anyListToJval : List AnyValue → List Jval
  | [] => []
  | x :: xs => x.toJval :: anyListToJval xs

def anyMapToJval : List (String × AnyValue) → List (String × Jval)
  | [] => []
  | kv :: kvs => (kv.1, kv.2.toJval) :: anyMapToJval kvs

end

/-- The JSON object for an attribute map (`attrs.AsRaw()` under
`json.Marshal`, hence sorted keys). -/
def attrsJval (attrs : AttrMap) : Jval :=
  .obj (sortByKey (anyMapToJval attrs))

/-- True iff every `double` inside the attribute map is finite, i.e. iff
`json.Marshal` succeeds on its raw form. -/
def attrsFinite (attrs : AttrMap) : Bool :=
  (attrsJval attrs).allFinite

/-- Source `attributesToJSON`. -/
def attributesToJSON (attrs : AttrMap) : String :=
  if attrs.length = 0 then "\x7b\x7d" else marshalJSON (attrsJval attrs)

/-- Go `pcommon.Value.AsString` (only its shape matters to the claims: a
plain textual form, used for non-structured log bodies). -/
def AnyValue.asString : AnyValue → String
  | .str s => s
  | .int n => toString n
  | .double d =>
    match d with
    | .finite v => toString v
    | .nan => "NaN"
    | .posInf => "+Inf"
    | .negInf => "-Inf"
  | .bool b => if b then "true" else "false"
  | .bytes bs => base64Encode bs
  | .arr xs => marshalJSON (AnyValue.toJval (.arr xs))
  | .map kvs => marshalJSON (AnyValue.toJval (.map kvs))
  | .empty => ""

/-- Model of `pcommon.InstrumentationScope`. -/
structure InstrumentationScope where
  name : String
  version : String
  attributes : AttrMap

/-- The JSON object `scopeToJSON` marshals: a `map[string]any` with `name`
and `version`, plus `attributes` only when non-empty; `json.Marshal` sorts
the keys (`attributes` < `name` < `version`). -/
def scopeJval (scope : InstrumentationScope) : Jval :=
  .obj
    (if scope.attributes.length > 0 then
      [("attributes", attrsJval scope.attributes),
       ("name", Jval.str scope.name), ("version", Jval.str scope.version)]
    else
      [("name", Jval.str scope.name), ("version", Jval.str scope.version)])

/-- Source `scopeToJSON`. -/
def scopeToJSON (scope : InstrumentationScope) : String :=
  marshalJSON (scopeJval scope)

/-- Go `hex.EncodeToString` over a byte sequence. -/
def hexEncode : List Nat → String
  | [] => ""
  | b :: bs =>
    let b := b % 256
    String.mk [hexDigit (b / 16), hexDigit (b % 16)] ++ hexEncode bs

/-- Model of `pcommon.TraceID` (`[16]byte`). -/
structure TraceID where
  bytes : List Nat
deriving DecidableEq, Repr

/-- Model of `pcommon.SpanID` (`[8]byte`). -/
structure SpanID where
  bytes : List Nat
deriving DecidableEq, Repr

/-- Source `traceIDToHex`: hex of all bytes, with no emptiness check. -/
def traceIDToHex (id : TraceID) : String :=
  hexEncode id.bytes

/-- Source `spanIDToHex`: empty string when the id is all zero
(`pcommon.SpanID.IsEmpty`), hex otherwise. -/
def spanIDToHex (id : SpanID) : String :=
  if id.bytes.all (fun b => b == 0) then "" else hexEncode id.bytes

/-- Model of `pcommon.Timestamp` (uint64 nanoseconds). -/
structure Timestamp where
  nanos : Nat
deriving DecidableEq, Repr

/-- Go `pcommon.Timestamp.AsTime`. -/
def Timestamp.asTime (t : Timestamp) : GoTime :=
  ⟨t.nanos⟩

/-- Model of the source's `type row = map[string]bigquery.Value` (a Go type
alias): an association list with the map's replace-on-assign semantics. -/
abbrev Row := List (String × BQValue)

/-- Go map lookup `row[name]` (first matching key). -/
def findKey {α : Type} : List (String × α) → String → Option α
  | [], _ => none
  | (k, v) :: rest, name => if k = name then some v else findKey rest name

/-- Go map assignment `row[name] = value`: replace the entry when the key is
present, append it otherwise. -/
def setKey {α : Type} : List (String × α) → String → α → List (String × α)
  | [], name, value => [(name, value)]
  | (k, v) :: rest, name, value =>
    if k = name then (name, value) :: rest else (k, v) :: setKey rest name value

def Row.find (r : Row) (c : String) : Option BQValue := findKey r c

def Row.set (r : Row) (c : String) (v : BQValue) : Row := setKey r c v

/-- A column is populated when it is present with a non-null value. -/
def Row.populated (r : Row) (c : String) : Bool :=
  match r.find c with
  | some .null => false
  | some _ => true
  | none => false

/-- BigQuery column types used by the three schemas. -/
inductive BQFieldType where
  | string
  | boolean
  | integer
  | float
  | timestamp
  | json
deriving DecidableEq, Repr

/-- One `bigquery.FieldSchema` of the static schemas. -/
structure BQField where
  name : String
  type : BQFieldType
  required : Bool
deriving DecidableEq, Repr

/-- Source `tracesSchema`. -/
def tracesSchema : List BQField :=
  [⟨"trace_id", .string, true⟩,
   ⟨"span_id", .string, true⟩,
   ⟨"parent_span_id", .string, false⟩,
   ⟨"trace_state", .string, false⟩,
   ⟨"name", .string, true⟩,
   ⟨"kind", .string, false⟩,
   ⟨"start_time", .timestamp, true⟩,
   ⟨"end_time", .timestamp, true⟩,
   ⟨"status_code", .string, false⟩,
   ⟨"status_message", .string, false⟩,
   ⟨"flags", .integer, false⟩,
   ⟨"dropped_attributes_count", .integer, false⟩,
   ⟨"dropped_events_count", .integer, false⟩,
   ⟨"dropped_links_count", .integer, false⟩,
   ⟨"resource_attributes", .json, false⟩,
   ⟨"resource_schema_url", .string, false⟩,
   ⟨"span_attributes", .json, false⟩,
   ⟨"events", .json, false⟩,
   ⟨"links", .json, false⟩,
   ⟨"instrumentation_scope", .json, false⟩,
   ⟨"scope_schema_url", .string, false⟩]

/-- Source `metricsSchema`. -/
def metricsSchema : List BQField :=
  [⟨"metric_name", .string, true⟩,
   ⟨"metric_description", .string, false⟩,
   ⟨"metric_unit", .string, false⟩,
   ⟨"metric_type", .string, true⟩,
   ⟨"aggregation_temporality", .string, false⟩,
   ⟨"is_monotonic", .boolean, false⟩,
   ⟨"datapoint_timestamp", .timestamp, true⟩,
   ⟨"start_timestamp", .timestamp, false⟩,
   ⟨"value_int", .integer, false⟩,
   ⟨"value_double", .float, false⟩,
   ⟨"exemplars", .json, false⟩,
   ⟨"flags", .integer, false⟩,
   ⟨"quantiles", .json, false⟩,
   ⟨"count", .integer, false⟩,
   ⟨"sum", .float, false⟩,
   ⟨"min", .float, false⟩,
   ⟨"max", .float, false⟩,
   ⟨"bucket_counts", .json, false⟩,
   ⟨"explicit_bounds", .json, false⟩,
   ⟨"zero_threshold", .float, false⟩,
   ⟨"resource_attributes", .json, false⟩,
   ⟨"resource_schema_url", .string, false⟩,
   ⟨"datapoint_attributes", .json, false⟩,
   ⟨"instrumentation_scope", .json, false⟩,
   ⟨"scope_schema_url", .string, false⟩]

/-- Source `logsSchema`. -/
def logsSchema : List BQField :=
  [⟨"observed_timestamp", .timestamp, false⟩,
   ⟨"log_timestamp", .timestamp, false⟩,
   ⟨"trace_id", .string, false⟩,
   ⟨"span_id", .string, false⟩,
   ⟨"severity_number", .integer, false⟩,
   ⟨"severity_text", .string, false⟩,
   ⟨"body", .string, false⟩,
   ⟨"flags", .integer, false⟩,
   ⟨"dropped_attributes_count", .integer, false⟩,
   ⟨"resource_attributes", .json, false⟩,
   ⟨"resource_schema_url", .string, false⟩,
   ⟨"log_attributes", .json, false⟩,
   ⟨"instrumentation_scope", .json, false⟩,
   ⟨"scope_schema_url", .string, false⟩]

/-- The JSON-typed column names of a schema. -/
def jsonColumns (schema : List BQField) : List String :=
  (schema.filter (fun f => f.type == BQFieldType.json)).map (fun f => f.name)

/-- Model of `ptrace.SpanKind`. -/
inductive SpanKind where
  | unspecified
  | internal
  | server
  | client
  | producer
  | consumer
deriving DecidableEq, Repr

/-- Source `spanKindToString`. -/
def spanKindToString : SpanKind → String
  | .internal => "INTERNAL"
  | .server => "SERVER"
  | .client => "CLIENT"
  | .producer => "PRODUCER"
  | .consumer => "CONSUMER"
  | _ => "UNSPECIFIED"

/-- Model of `ptrace.StatusCode`. -/
inductive StatusCode where
  | unset
  | ok
  | error
deriving DecidableEq, Repr

/-- Source `statusCodeToString`. -/
def statusCodeToString : StatusCode → String
  | .ok => "OK"
  | .error => "ERROR"
  | _ => "UNSET"

/-- Model of a `ptrace.SpanEvent`. -/
structure SpanEvent where
  timestamp : Timestamp
  name : String
  attributes : AttrMap
  droppedAttributesCount : Nat

/-- Model of a `ptrace.SpanLink`. -/
structure SpanLink where
  traceId : TraceID
  spanId : SpanID
  traceState : String
  attributes : AttrMap
  droppedAttributesCount : Nat
  flags : Nat

/-- Model of a `ptrace.Span`. -/
structure Span where
  traceId : TraceID
  spanId : SpanID
  parentSpanId : SpanID
  traceState : String
  name : String
  kind : SpanKind
  startTimestamp : Timestamp
  endTimestamp : Timestamp
  statusCode : StatusCode
  statusMessage : String
  flags : Nat
  droppedAttributesCount : Nat
  droppedEventsCount : Nat
  droppedLinksCount : Nat
  attributes : AttrMap
  events : List SpanEvent
  links : List SpanLink

/-- Model of a `pcommon.Resource`. -/
structure Resource where
  attributes : AttrMap

/-- Model of `ptrace.ScopeSpans`. -/
structure ScopeSpans where
  scope : InstrumentationScope
  schemaUrl : String
  spans : List Span

/-- Model of `ptrace.ResourceSpans`. -/
structure ResourceSpans where
  resource : Resource
  schemaUrl : String
  scopeSpans : List ScopeSpans

/-- Model of `ptrace.Traces`. -/
structure Traces where
  resourceSpans : List ResourceSpans

/-- The JSON object one span event marshals to.  The Go code stores
`json.RawMessage(attributesToJSON(e.Attributes()))` under `attributes`;
inlining a raw message is the same as embedding the attribute object
directly (and `json.Marshal` likewise fails when that raw text came from a
failed marshal).  Keys appear in `json.Marshal`'s sorted order. -/
def SpanEvent.jv (e : SpanEvent) : Jval :=
  .obj [("attributes", attrsJval e.attributes),
        ("dropped_attributes_count", .int e.droppedAttributesCount),
        ("name", .str e.name),
        ("timestamp", .str (formatRFC3339Nano e.timestamp.asTime))]

/-- Source `eventsToJSON`. -/
def eventsToJSON (events : List SpanEvent) : String :=
  if events.length = 0 then "[]" else marshalJSON (.arr (events.map SpanEvent.jv))

/-- The JSON object one span link marshals to (sorted keys, raw attribute
message inlined as in `SpanEvent.jv`). -/
def SpanLink.jv (l : SpanLink) : Jval :=
  .obj [("attributes", attrsJval l.attributes),
        ("dropped_attributes_count", .int l.droppedAttributesCount),
        ("flags", .int l.flags),
        ("span_id", .str (spanIDToHex l.spanId)),
        ("trace_id", .str (traceIDToHex l.traceId)),
        ("trace_state", .str l.traceState)]

/-- Source `linksToJSON`. -/
def linksToJSON (links : List SpanLink) : String :=
  if links.length = 0 then "[]" else marshalJSON (.arr (links.map SpanLink.jv))

/-- Source `tracesToRows`: one row per span, in resource → scope → span
order. -/
def tracesToRows (td : Traces) : List Row :=
  td.resourceSpans.flatMap fun rs =>
    rs.scopeSpans.flatMap fun ss =>
      ss.spans.map fun span =>
        [("trace_id", .str (traceIDToHex span.traceId)),
         ("span_id", .str (spanIDToHex span.spanId)),
         ("parent_span_id", .str (spanIDToHex span.parentSpanId)),
         ("trace_state", .str span.traceState),
         ("name", .str span.name),
         ("kind", .str (spanKindToString span.kind)),
         ("start_time", .time span.startTimestamp.asTime),
         ("end_time", .time span.endTimestamp.asTime),
         ("status_code", .str (statusCodeToString span.statusCode)),
         ("status_message", .str span.statusMessage),
         ("flags", .int64 span.flags),
         ("dropped_attributes_count", .int64 span.droppedAttributesCount),
         ("dropped_events_count", .int64 span.droppedEventsCount),
         ("dropped_links_count", .int64 span.droppedLinksCount),
         ("resource_attributes", .str (attributesToJSON rs.resource.attributes)),
         ("resource_schema_url", .str rs.schemaUrl),
         ("span_attributes", .str (attributesToJSON span.attributes)),
         ("events", .str (eventsToJSON span.events)),
         ("links", .str (linksToJSON span.links)),
         ("instrumentation_scope", .str (scopeToJSON ss.scope)),
         ("scope_schema_url", .str ss.schemaUrl)]

/-- Model of `pmetric.AggregationTemporality`. -/
inductive AggTemporality where
  | unspecified
  | delta
  | cumulative
deriving DecidableEq, Repr

/-- Source `aggregationTemporalityToString`. -/
def aggregationTemporalityToString : AggTemporality → String
  | .cumulative => "CUMULATIVE"
  | .delta => "DELTA"
  | _ => "UNSPECIFIED"

/-- The value variant of a `pmetric.NumberDataPoint` / `pmetric.Exemplar`
(`ValueType` of int, double, or empty). -/
inductive NumberValue where
  | intVal (n : Int)
  | doubleVal (d : GoFloat)
  | empty
deriving DecidableEq, Repr

/-- Model of a `pmetric.Exemplar`. -/
structure Exemplar where
  timestamp : Timestamp
  traceId : TraceID
  spanId : SpanID
  filteredAttributes : AttrMap
  value : NumberValue

/-- The JSON object one exemplar marshals to: the base map in sorted-key
order, with `value_int`/`value_double` added by the `ValueType` switch (both
sort after the base keys). -/
def Exemplar.jv (ex : Exemplar) : Jval :=
  .obj ([("filtered_attributes", attrsJval ex.filteredAttributes),
         ("span_id", .str (spanIDToHex ex.spanId)),
         ("timestamp", .str (formatRFC3339Nano ex.timestamp.asTime)),
         ("trace_id", .str (traceIDToHex ex.traceId))] ++
    match ex.value with
    | .intVal n => [("value_int", Jval.int n)]
    | .doubleVal d => [("value_double", Jval.double d)]
    | .empty => [])

/-- Source `exemplarsToJSON`. -/
def exemplarsToJSON (exemplars : List Exemplar) : String :=
  if exemplars.length = 0 then "[]" else marshalJSON (.arr (exemplars.map Exemplar.jv))

/-- Model of a `pmetric.NumberDataPoint`. -/
structure NumberDataPoint where
  timestamp : Timestamp
  startTimestamp : Timestamp
  flags : Nat
  attributes : AttrMap
  exemplars : List Exemplar
  value : NumberValue

/-- Model of a `pmetric.HistogramDataPoint`; `sum`, `min` and `max` are
`some` exactly when `HasSum`/`HasMin`/`HasMax` report presence. -/
structure HistogramDataPoint where
  timestamp : Timestamp
  startTimestamp : Timestamp
  flags : Nat
  attributes : AttrMap
  exemplars : List Exemplar
  count : Nat
  sum : Option GoFloat
  min : Option GoFloat
  max : Option GoFloat
  bucketCounts : List Nat
  explicitBounds : List GoFloat

/-- Model of a `pmetric.SummaryDataPointValueAtQuantile`. -/
structure QuantileValue where
  quantile : GoFloat
  value : GoFloat

/-- Model of a `pmetric.SummaryDataPoint`. -/
structure SummaryDataPoint where
  timestamp : Timestamp
  startTimestamp : Timestamp
  flags : Nat
  attributes : AttrMap
  count : Nat
  sum : GoFloat
  quantileValues : List QuantileValue

/-- Model of one side of `pmetric.ExponentialHistogramDataPointBuckets`. -/
structure ExpBuckets where
  offset : Int
  bucketCounts : List Nat

/-- Model of a `pmetric.ExponentialHistogramDataPoint`. -/
structure ExpHistogramDataPoint where
  timestamp : Timestamp
  startTimestamp : Timestamp
  flags : Nat
  attributes : AttrMap
  exemplars : List Exemplar
  count : Nat
  sum : Option GoFloat
  min : Option GoFloat
  max : Option GoFloat
  zeroThreshold : GoFloat
  scale : Int
  zeroCount : Nat
  positive : ExpBuckets
  negative : ExpBuckets

/-- The variant part of a `pmetric.Metric` (`pmetric.MetricType`); `empty`
is `pmetric.MetricTypeEmpty`, the unrecognized/unset type. -/
inductive MetricData where
  | gauge (dps : List NumberDataPoint)
  | sum (aggregationTemporality : AggTemporality) (isMonotonic : Bool)
      (dps : List NumberDataPoint)
  | histogram (aggregationTemporality : AggTemporality) (dps : List HistogramDataPoint)
  | summary (dps : List SummaryDataPoint)
  | expHistogram (aggregationTemporality : AggTemporality) (dps : List ExpHistogramDataPoint)
  | empty

/-- Model of a `pmetric.Metric`. -/
structure Metric where
  name : String
  description : String
  unit : String
  data : MetricData

/-- Model of `pmetric.ScopeMetrics`. -/
structure ScopeMetrics where
  scope : InstrumentationScope
  schemaUrl : String
  metrics : List Metric

/-- Model of `pmetric.ResourceMetrics`. -/
structure ResourceMetrics where
  resource : Resource
  schemaUrl : String
  scopeMetrics : List ScopeMetrics

/-- Model of `pmetric.Metrics`. -/
structure Metrics where
  resourceMetrics : List ResourceMetrics

/-- Source `bucketCountsToJSON`. -/
def bucketCountsToJSON (values : List Nat) : String :=
  if values.length = 0 then "[]" else marshalJSON (.arr (values.map fun v => Jval.int v))

/-- Source `explicitBoundsToJSON`. -/
def explicitBoundsToJSON (values : List GoFloat) : String :=
  if values.length = 0 then "[]" else marshalJSON (.arr (values.map fun v => Jval.double v))

/-- Source `quantilesToJSON` (object keys `quantile` < `value` already
sorted). -/
def quantilesToJSON (qvs : List QuantileValue) : String :=
  if qvs.length = 0 then "[]"
  else marshalJSON (.arr (qvs.map fun qv =>
    Jval.obj [("quantile", .double qv.quantile), ("value", .double qv.value)]))

/-- Source `exponentialBucketInfoToJSON` (keys in `json.Marshal`'s sorted
order: `negative` < `positive` < `scale` < `zero_count`, and inside each
side `bucket_counts` < `offset`). -/
def exponentialBucketInfoToJSON (dp : ExpHistogramDataPoint) : String :=
  marshalJSON (.obj
    [("negative", .obj [("bucket_counts", .arr (dp.negative.bucketCounts.map fun v => Jval.int v)),
                        ("offset", .int dp.negative.offset)]),
     ("positive", .obj [("bucket_counts", .arr (dp.positive.bucketCounts.map fun v => Jval.int v)),
                        ("offset", .int dp.positive.offset)]),
     ("scale", .int dp.scale),
     ("zero_count", .int dp.zeroCount)])

/-- Source `metricBaseRow`: the shared per-metric row with all value fields
at their defaults. -/
def metricBaseRow (metric : Metric) (resourceAttrs : AttrMap) (resourceSchemaURL : String)
    (scope : InstrumentationScope) (scopeSchemaURL : String) : Row :=
  [("metric_name", .str metric.name),
   ("metric_description", .str metric.description),
   ("metric_unit", .str metric.unit),
   ("metric_type", .str ""),
   ("aggregation_temporality", .str ""),
   ("is_monotonic", .bool false),
   ("datapoint_timestamp", .time ⟨0⟩),
   ("start_timestamp", .time ⟨0⟩),
   ("value_int", .null),
   ("value_double", .null),
   ("exemplars", .str "[]"),
   ("flags", .int64 0),
   ("quantiles", .str "[]"),
   ("count", .null),
   ("sum", .null),
   ("min", .null),
   ("max", .null),
   ("bucket_counts", .str "[]"),
   ("explicit_bounds", .str "[]"),
   ("zero_threshold", .null),
   ("resource_attributes", .str (attributesToJSON resourceAttrs)),
   ("resource_schema_url", .str resourceSchemaURL),
   ("datapoint_attributes", .str (attributesToJSON [])),
   ("instrumentation_scope", .str (scopeToJSON scope)),
   ("scope_schema_url", .str scopeSchemaURL)]

/-- Source `cloneMetricRow`: `maps.Copy` into a fresh map (copying is
implicit in the pure model) followed by setting `metric_type`. -/
def cloneMetricRow (base : Row) (metricType : String) : Row :=
  base.set "metric_type" (.str metricType)

/-- Source `setCommonDataPointFields`. -/
def setCommonDataPointFields (r : Row) (ts start : Timestamp) (flags : Nat)
    (attrs : AttrMap) : Row :=
  (((r.set "datapoint_timestamp" (.time ts.asTime)).set
      "start_timestamp" (.time start.asTime)).set
      "flags" (.int64 flags)).set
      "datapoint_attributes" (.str (attributesToJSON attrs))

/-- Source `setNumberValue`: the `ValueType` switch (no default arm, so an
empty value type leaves both columns as the base left them). -/
def setNumberValue (r : Row) (dp : NumberDataPoint) : Row :=
  match dp.value with
  | .intVal n => (r.set "value_int" (.int64 n)).set "value_double" .null
  | .doubleVal d => (r.set "value_int" .null).set "value_double" (.float64 d)
  | .empty => r

/-- The source's `if dp.HasSum() then r["sum"] = dp.Sum()` conditional
assignment pattern. -/
def maybeSetFloat (r : Row) (c : String) : Option GoFloat → Row
  | some v => r.set c (.float64 v)
  | none => r

/-- Source `numberDataPointsToRows`. -/
def numberDataPointsToRows (dps : List NumberDataPoint) (base : Row)
    (metricType : String) : List Row :=
  dps.map fun dp =>
    setNumberValue
      ((setCommonDataPointFields (cloneMetricRow base metricType)
          dp.timestamp dp.startTimestamp dp.flags dp.attributes).set
        "exemplars" (.str (exemplarsToJSON dp.exemplars)))
      dp

/-- Source `gaugeToRows`. -/
def gaugeToRows (dps : List NumberDataPoint) (base : Row) : List Row :=
  numberDataPointsToRows dps base "GAUGE"

/-- Source `sumToRows`: mutates the shared base with temporality and
monotonicity before projecting the points. -/
def sumToRows (aggT : AggTemporality) (isMonotonic : Bool)
    (dps : List NumberDataPoint) (base : Row) : List Row :=
  numberDataPointsToRows dps
    ((base.set "aggregation_temporality" (.str (aggregationTemporalityToString aggT))).set
      "is_monotonic" (.bool isMonotonic))
    "SUM"

/-- Source `histogramToRows`. -/
def histogramToRows (aggT : AggTemporality) (dps : List HistogramDataPoint)
    (base : Row) : List Row :=
  let base := base.set "aggregation_temporality" (.str (aggregationTemporalityToString aggT))
  dps.map fun dp =>
    ((maybeSetFloat (maybeSetFloat (maybeSetFloat
        (((setCommonDataPointFields (cloneMetricRow base "HISTOGRAM")
            dp.timestamp dp.startTimestamp dp.flags dp.attributes).set
          "exemplars" (.str (exemplarsToJSON dp.exemplars))).set
          "count" (.uint64 dp.count))
        "sum" dp.sum) "min" dp.min) "max" dp.max).set
      "bucket_counts" (.str (bucketCountsToJSON dp.bucketCounts))).set
      "explicit_bounds" (.str (explicitBoundsToJSON dp.explicitBounds))

/-- Source `summaryToRows`. -/
def summaryToRows (dps : List SummaryDataPoint) (base : Row) : List Row :=
  dps.map fun dp =>
    (((setCommonDataPointFields (cloneMetricRow base "SUMMARY")
        dp.timestamp dp.startTimestamp dp.flags dp.attributes).set
      "count" (.uint64 dp.count)).set
      "sum" (.float64 dp.sum)).set
      "quantiles" (.str (quantilesToJSON dp.quantileValues))

/-- Source `exponentialHistogramToRows`. -/
def exponentialHistogramToRows (aggT : AggTemporality)
    (dps : List ExpHistogramDataPoint) (base : Row) : List Row :=
  let base := base.set "aggregation_temporality" (.str (aggregationTemporalityToString aggT))
  dps.map fun dp =>
    ((maybeSetFloat (maybeSetFloat (maybeSetFloat
        (((setCommonDataPointFields (cloneMetricRow base "EXPONENTIAL_HISTOGRAM")
            dp.timestamp dp.startTimestamp dp.flags dp.attributes).set
          "exemplars" (.str (exemplarsToJSON dp.exemplars))).set
          "count" (.uint64 dp.count))
        "sum" dp.sum) "min" dp.min) "max" dp.max).set
      "zero_threshold" (.float64 dp.zeroThreshold)).set
      "bucket_counts" (.str (exponentialBucketInfoToJSON dp))

/-- Source `metricToRows`: variant dispatch over the metric type, the
default arm returning no rows. -/
def metricToRows (metric : Metric) (resourceAttrs : AttrMap) (resourceSchemaURL : String)
    (scope : InstrumentationScope) (scopeSchemaURL : String) : List Row :=
  let baseRow := metricBaseRow metric resourceAttrs resourceSchemaURL scope scopeSchemaURL
  match metric.data with
  | .gauge dps => gaugeToRows dps baseRow
  | .sum aggT mono dps => sumToRows aggT mono dps baseRow
  | .histogram aggT dps => histogramToRows aggT dps baseRow
  | .summary dps => summaryToRows dps baseRow
  | .expHistogram aggT dps => exponentialHistogramToRows aggT dps baseRow
  | .empty => []

/-- Source `metricsToRows`. -/
def metricsToRows (md : Metrics) : List Row :=
  md.resourceMetrics.flatMap fun rm =>
    rm.scopeMetrics.flatMap fun sm =>
      sm.metrics.flatMap fun metric =>
        metricToRows metric rm.resource.attributes rm.schemaUrl sm.scope sm.schemaUrl

/-- Model of a `plog.LogRecord`. -/
structure LogRecord where
  observedTimestamp : Timestamp
  timestamp : Timestamp
  traceId : TraceID
  spanId : SpanID
  severityNumber : Int
  severityText : String
  body : AnyValue
  flags : Nat
  droppedAttributesCount : Nat
  attributes : AttrMap

/-- Model of `plog.ScopeLogs`. -/
structure ScopeLogs where
  scope : InstrumentationScope
  schemaUrl : String
  logRecords : List LogRecord

/-- Model of `plog.ResourceLogs`. -/
structure ResourceLogs where
  resource : Resource
  schemaUrl : String
  scopeLogs : List ScopeLogs

/-- Model of `plog.Logs`. -/
structure Logs where
  resourceLogs : List ResourceLogs

/-- Source `bodyToString`: structured bodies marshal to JSON, an unset body
is the empty string, anything else uses its plain text form. -/
def bodyToString (body : AnyValue) : String :=
  match body with
  | .map kvs => marshalJSON (AnyValue.toJval (.map kvs))
  | .arr xs => marshalJSON (AnyValue.toJval (.arr xs))
  | .empty => ""
  | other => other.asString

/-- Source `logsToRows`. -/
def logsToRows (ld : Logs) : List Row :=
  ld.resourceLogs.flatMap fun rl =>
    rl.scopeLogs.flatMap fun sl =>
      sl.logRecords.map fun lr =>
        [("observed_timestamp", .time lr.observedTimestamp.asTime),
         ("log_timestamp", .time lr.timestamp.asTime),
         ("trace_id", .str (traceIDToHex lr.traceId)),
         ("span_id", .str (spanIDToHex lr.spanId)),
         ("severity_number", .int64 lr.severityNumber),
         ("severity_text", .str lr.severityText),
         ("body", .str (bodyToString lr.body)),
         ("flags", .int64 lr.flags),
         ("dropped_attributes_count", .int64 lr.droppedAttributesCount),
         ("resource_attributes", .str (attributesToJSON rl.resource.attributes)),
         ("resource_schema_url", .str rl.schemaUrl),
         ("log_attributes", .str (attributesToJSON lr.attributes)),
         ("instrumentation_scope", .str (scopeToJSON sl.scope)),
         ("scope_schema_url", .str sl.schemaUrl)]

/-!  Dynamic row encoder (`storage_writer.go`).  The protobuf descriptor
produced by the external `adapt` package is modelled as a flat list of named
fields whose kind is either a plain scalar wire kind or a nested
single-field wrapper message (used for JSON columns); `otherKind` stands for
any `protoreflect.Kind` outside the four the encoder supports.  The encoder
returns the constructed dynamic message (whose serialization by
`proto.Marshal` is external) or the field-level error the source wraps with
the offending column name. -/

/-- The scalar wire kinds the encoder dispatches on; `otherKind` is any
unsupported `protoreflect.Kind`. -/
inductive ScalarKind where
  | stringKind
  | boolKind
  | int64Kind
  | doubleKind
  | otherKind
deriving DecidableEq, Repr

/-- A field of a wrapper message descriptor. -/
structure InnerField where
  name : String
  kind : ScalarKind
deriving DecidableEq, Repr

/-- The kind of a top-level descriptor field: a scalar, or a nested message
(the JSON-column wrapper shape). -/
inductive FieldKind where
  | scalar (k : ScalarKind)
  | message (fields : List InnerField)
deriving DecidableEq, Repr

/-- A top-level field of the runtime message descriptor. -/
structure FieldDesc where
  name : String
  kind : FieldKind
deriving DecidableEq, Repr

/-- The runtime message descriptor (`protoreflect.MessageDescriptor`). -/
structure MessageDesc where
  fields : List FieldDesc
deriving DecidableEq, Repr

/-- The coercion errors of `storage_writer.go`, keeping the information the
`fmt.Errorf` messages carry: the expected kind and the `%T` of the value for
a type mismatch, `"unsupported field kind"` and `"unsupported message
type"` for the two structural failures. -/
inductive CoerceError where
  | typeMismatch (expected : String) (actualType : String)
  | unsupportedKind
  | unsupportedMessageType
deriving DecidableEq, Repr

/-- The spec's `FieldEncodingError\x7bcolumn, expectedKind, actualKind\x7d`: the
source produces it as `fmt.Errorf("set field %q: %w", name, err)` wrapping
the coercion error. -/
structure FieldEncodingError where
  column : String
  err : CoerceError
deriving DecidableEq, Repr

/-- Source `asString`: exact type match only. -/
def asString (value : BQValue) : Except CoerceError String :=
  match value with
  | .str s => .ok s
  | v => .error (.typeMismatch "string" v.typeName)

/-- Source `asBool`: exact type match only. -/
def asBool (value : BQValue) : Except CoerceError Bool :=
  match value with
  | .bool b => .ok b
  | v => .error (.typeMismatch "bool" v.typeName)

/-- Go's conversion `int64(n)` of a `uint64`: two's-complement
reinterpretation. -/
def uint64ToInt64 (n : Nat) : Int :=
  let m : Nat := n % 2 ^ 64
  if m < 2 ^ 63 then (m : Int) else (m : Int) - 2 ^ 64

/-- Go's conversion `int64(f)` of a `float64`: truncation; in this model a
finite float's payload is already integral, and the non-finite conversions
take the amd64 result of `math.MinInt64`. -/
def float64ToInt64 : GoFloat → Int
  | .finite v => v
  | _ => -(2 ^ 63)

/-- Source `asInt64`: the type switch accepts exactly `int`, `int64`,
`uint64`, `uint32`, `float64` and `time.Time` (the time converting to
microseconds since the Unix epoch); every other dynamic type, including the
remaining integer widths, falls to the error arm. -/
def asInt64 (value : BQValue) : Except CoerceError Int :=
  match value with
  | .int n => .ok n
  | .int64 n => .ok n
  | .uint64 n => .ok (uint64ToInt64 n)
  | .uint32 n => .ok (n : Int)
  | .float64 f => .ok (float64ToInt64 f)
  | .time t => .ok t.unixMicro
  | v => .error (.typeMismatch "int64-compatible value" v.typeName)

/-- Source `asFloat64`: the type switch accepts exactly `float64`,
`float32`, `int` and `int64`; every other dynamic type, including the
unsigned widths, falls to the error arm.  A Go int converted to float64 is
modelled by tagging the integer payload as finite. -/
def asFloat64 (value : BQValue) : Except CoerceError GoFloat :=
  match value with
  | .float64 f => .ok f
  | .float32 f => .ok f
  | .int n => .ok (.finite n)
  | .int64 n => .ok (.finite n)
  | v => .error (.typeMismatch "float64-compatible value" v.typeName)

/-- A `protoreflect.Value` as constructed by the encoder. -/
inductive RValue where
  | str (s : String)
  | bool (b : Bool)
  | int64 (n : Int)
  | double (d : GoFloat)
  | msg (fields : List (String × RValue))

/-- Source `toProtoreflectValue`: dispatch on the wire kind into the
coercion layer, with unsupported kinds rejected. -/
def toProtoreflectValue (kind : ScalarKind) (value : BQValue) : Except CoerceError RValue :=
  match kind with
  | .stringKind => (asString value).map RValue.str
  | .boolKind => (asBool value).map RValue.bool
  | .int64Kind => (asInt64 value).map RValue.int64
  | .doubleKind => (asFloat64 value).map RValue.double
  | .otherKind => .error .unsupportedKind

/-- Source `dynamicWrapperValue`: look up the wrapper's single `value`
field, coerce into its kind, and return the wrapper message. -/
def dynamicWrapperValue (fields : List InnerField) (value : BQValue) :
    Except CoerceError RValue :=
  match fields.find? (fun f => f.name = "value") with
  | none => .error .unsupportedMessageType
  | some f => (toProtoreflectValue f.kind value).map fun rv => RValue.msg [("value", rv)]

/-- Source `setFieldValue`: message kinds go through the wrapper path,
everything else through `toProtoreflectValue`. -/
def setFieldValue (fd : FieldDesc) (value : BQValue) : Except CoerceError RValue :=
  match fd.kind with
  | .message inner => dynamicWrapperValue inner value
  | .scalar k => toProtoreflectValue k value

/-- The state of the dynamic message: the fields explicitly set, by name
(an absent name is an unset field, distinct from any zero value). -/
abbrev Msg := List (String × RValue)

/-- The field loop of `encodeRow`: skip entries whose name matches no
descriptor field and entries with a nil value; set everything else, wrapping
a coercion failure with the offending column name. -/
def encodeFields (desc : MessageDesc) : List (String × BQValue) → Msg →
    Except FieldEncodingError Msg
  | [], msg => .ok msg
  | (name, value) :: rest, msg =>
    match desc.fields.find? (fun f => f.name = name) with
    | none => encodeFields desc rest msg
    | some fd =>
      if value = .null then encodeFields desc rest msg
      else
        match setFieldValue fd value with
        | .error e => .error ⟨name, e⟩
        | .ok rv => encodeFields desc rest (setKey msg name rv)

/-- Source `encodeRow`: build a fresh dynamic message from the row (the
final `proto.Marshal` serialization is external; the message stands for the
bytes it serializes to, and an error yields no message at all). -/
def encodeRow (desc : MessageDesc) (r : Row) : Except FieldEncodingError Msg :=
  encodeFields desc r []

/-- True on `Except.error`. -/
def isErr {ε α : Type} : Except ε α → Bool
  | .error _ => true
  | .ok _ => false

/-- The wire kind a field coerces through: a scalar field's own kind, a
wrapper field's inner `value` kind. -/
def fieldKindOf (fd : FieldDesc) : Option ScalarKind :=
  match fd.kind with
  | .scalar k => some k
  | .message inner => (inner.find? (fun f => f.name = "value")).map (fun f => f.kind)

/-!  Basic lemmas about the association-list map operations. -/

/-- The number of spans in a traces batch, summed across all resource/scope
groupings. -/
def Traces.spanCount (td : Traces) : Nat :=
  (td.resourceSpans.map (fun rs => (rs.scopeSpans.map (fun ss => ss.spans.length)).sum)).sum

/-- The number of data points a single metric carries (the unset/unknown
metric type exposes none). -/
def Metric.dataPointCount (m : Metric) : Nat :=
  match m.data with
  | .gauge dps => dps.length
  | .sum _ _ dps => dps.length
  | .histogram _ dps => dps.length
  | .summary dps => dps.length
  | .expHistogram _ dps => dps.length
  | .empty => 0

/-- The number of metric data points in a metrics batch, summed across all
resource/scope groupings. -/
def Metrics.dataPointCount (md : Metrics) : Nat :=
  (md.resourceMetrics.map (fun rm =>
    (rm.scopeMetrics.map (fun sm => (sm.metrics.map Metric.dataPointCount).sum)).sum)).sum

/-- The number of log records in a logs batch, summed across all
resource/scope groupings. -/
def Logs.logRecordCount (ld : Logs) : Nat :=
  (ld.resourceLogs.map (fun rl => (rl.scopeLogs.map (fun sl => sl.logRecords.length)).sum)).sum

/-- The entries of a JSON object value (empty for non-objects). -/
def Jval.objFields : Jval → List (String × Jval)
  | .obj kvs => kvs
  | _ => []

/-- Concrete one-span batch used to witness `c10_id_rendering`. -/
def c10td : Traces :=
  ⟨[⟨⟨[]⟩, "",
     [⟨⟨"lib", "1.0", []⟩, "",
       [⟨⟨List.replicate 16 0⟩, ⟨List.replicate 8 5⟩, ⟨List.replicate 8 0⟩, "", "op",
         .internal, ⟨1⟩, ⟨2⟩, .unset, "", 0, 0, 0, 0, [], [], []⟩]⟩]⟩]⟩

/-- Concrete batch refuting C3 as stated: one gauge metric with a single
data point whose `ValueType` is empty (`pmetric.NumberDataPointValueTypeEmpty`). -/
def c3md : Metrics :=
  ⟨[⟨⟨[]⟩, "",
     [⟨⟨"lib", "1.0", []⟩, "",
       [⟨"gauge_metric", "", "", .gauge [⟨⟨1⟩, ⟨0⟩, 0, [], [], .empty⟩]⟩]⟩]⟩]⟩

/-- A string holding valid JSON and in particular neither empty nor the
unquoted `null` literal a missing value would produce. -/
def GoodJson (s : String) : Prop :=
  IsJsonText s ∧ s ≠ "" ∧ s ≠ "null"

def NumberValue.finiteB : NumberValue → Bool
  | .intVal _ => true
  | .doubleVal d => d.isFinite
  | .empty => true

def Exemplar.finiteB (ex : Exemplar) : Bool :=
  attrsFinite ex.filteredAttributes && ex.value.finiteB

def SpanEvent.finiteB (e : SpanEvent) : Bool :=
  attrsFinite e.attributes

def SpanLink.finiteB (l : SpanLink) : Bool :=
  attrsFinite l.attributes

def Span.finiteB (s : Span) : Bool :=
  attrsFinite s.attributes && s.events.all SpanEvent.finiteB && s.links.all SpanLink.finiteB

def Traces.finiteB (td : Traces) : Bool :=
  td.resourceSpans.all fun rs =>
    attrsFinite rs.resource.attributes && rs.scopeSpans.all fun ss =>
      attrsFinite ss.scope.attributes && ss.spans.all Span.finiteB

def NumberDataPoint.finiteB (dp : NumberDataPoint) : Bool :=
  attrsFinite dp.attributes && dp.exemplars.all Exemplar.finiteB

def HistogramDataPoint.finiteB (dp : HistogramDataPoint) : Bool :=
  attrsFinite dp.attributes && dp.exemplars.all Exemplar.finiteB &&
    dp.explicitBounds.all GoFloat.isFinite

def SummaryDataPoint.finiteB (dp : SummaryDataPoint) : Bool :=
  attrsFinite dp.attributes &&
    dp.quantileValues.all (fun q => q.quantile.isFinite && q.value.isFinite)

def ExpHistogramDataPoint.finiteB (dp : ExpHistogramDataPoint) : Bool :=
  attrsFinite dp.attributes && dp.exemplars.all Exemplar.finiteB

def Metric.finiteB (m : Metric) : Bool :=
  match m.data with
  | .gauge dps => dps.all NumberDataPoint.finiteB
  | .sum _ _ dps => dps.all NumberDataPoint.finiteB
  | .histogram _ dps => dps.all HistogramDataPoint.finiteB
  | .summary dps => dps.all SummaryDataPoint.finiteB
  | .expHistogram _ dps => dps.all ExpHistogramDataPoint.finiteB
  | .empty => true

def Metrics.finiteB (md : Metrics) : Bool :=
  md.resourceMetrics.all fun rm =>
    attrsFinite rm.resource.attributes && rm.scopeMetrics.all fun sm =>
      attrsFinite sm.scope.attributes && sm.metrics.all Metric.finiteB

def LogRecord.finiteB (lr : LogRecord) : Bool :=
  attrsFinite lr.attributes

def Logs.finiteB (ld : Logs) : Bool :=
  ld.resourceLogs.all fun rl =>
    attrsFinite rl.resource.attributes && rl.scopeLogs.all fun sl =>
      attrsFinite sl.scope.attributes && sl.logRecords.all LogRecord.finiteB

/-- Concrete batch refuting C6 as stated: one span whose resource carries a
NaN-valued double attribute.  `json.Marshal` fails on NaN, `marshalJSON`
discards the error, and the JSON column ends up holding the empty
string. -/
def c6td : Traces :=
  ⟨[⟨⟨[("a", .double .nan)]⟩, "",
     [⟨⟨"lib", "1.0", []⟩, "",
       [⟨⟨List.replicate 16 0⟩, ⟨List.replicate 8 0⟩, ⟨List.replicate 8 0⟩, "", "op",
         .internal, ⟨0⟩, ⟨0⟩, .unset, "", 0, 0, 0, 0, [], [], []⟩]⟩]⟩]⟩

/-- Concrete all-finite one-span batch used to witness `c6_amended`. -/
def c6wtd : Traces :=
  ⟨[⟨⟨[("k", .str "v"), ("n", .double (.finite 2))]⟩, "url",
     [⟨⟨"lib", "1.0", [("s", .int 1)]⟩, "surl",
       [⟨⟨List.replicate 16 1⟩, ⟨List.replicate 8 1⟩, ⟨List.replicate 8 0⟩, "", "op",
         .server, ⟨1⟩, ⟨2⟩, .ok, "", 0, 0, 0, 0, [("x", .bool true)],
         [⟨⟨3⟩, "ev", [("e", .int 5)], 0⟩], []⟩]⟩]⟩]⟩

theorem findKey_setKey {α : Type} (l : List (String × α)) (k c : String) (v : α) :
    findKey (setKey l k v) c = if k = c then some v else findKey l c := by
  induction l with
  | nil =>
    by_cases h : k = c <;> simp [setKey, findKey, h]
  | cons kv rest ih =>
    obtain ⟨k', v'⟩ := kv
    by_cases hk : k' = k
    · subst hk
      by_cases hc : k' = c <;> simp [setKey, findKey, hc]
    · by_cases hc : k' = c
      · have hck : ¬c = k := fun h => hk (hc.trans h)
        have hkc : ¬k = c := fun h => hck h.symm
        simp [setKey, findKey, hc, hck, hkc]
      · simp [setKey, findKey, hk, hc, ih]

theorem findKey_maybeSetFloat (r : Row) (k c : String) (o : Option GoFloat) (h : ¬k = c) :
    findKey (maybeSetFloat r k o) c = findKey r c := by
  cases o with
  | none => rfl
  | some v => simp [maybeSetFloat, Row.find, Row.set, findKey_setKey, h]

theorem findKey_eq_some_of_mem {α : Type} (l : List (String × α)) (k : String) (v : α)
    (hnd : (l.map Prod.fst).Nodup) (hmem : (k, v) ∈ l) : findKey l k = some v := by
  induction l with
  | nil => simp at hmem
  | cons kv rest ih =>
    simp only [List.map_cons, List.nodup_cons] at hnd
    rcases List.mem_cons.mp hmem with h | h
    · subst h
      simp [findKey]
    · have hk : kv.1 ≠ k := by
        intro hke
        exact hnd.1 (hke ▸ List.mem_map.mpr ⟨(k, v), h, rfl⟩)
      obtain ⟨k', v'⟩ := kv
      simp only [findKey]
      rw [if_neg hk]
      exact ih hnd.2 h

theorem mem_of_findKey_eq_some {α : Type} {l : List (String × α)} {k : String} {v : α}
    (h : findKey l k = some v) : (k, v) ∈ l := by
  induction l with
  | nil => simp [findKey] at h
  | cons kv rest ih =>
    obtain ⟨k', v'⟩ := kv
    simp only [findKey] at h
    by_cases hk : k' = k
    · subst hk
      rw [if_pos rfl] at h
      cases h
      exact List.mem_cons_self ..
    · rw [if_neg hk] at h
      exact List.mem_cons_of_mem _ (ih h)

/-!  Claim C1: leaf-record counting. -/

theorem metricToRows_length (m : Metric) (ra : AttrMap) (ru : String)
    (sc : InstrumentationScope) (su : String) :
    (metricToRows m ra ru sc su).length = m.dataPointCount := by
  cases m with
  | mk name description unit data =>
    cases data <;>
      simp [metricToRows, Metric.dataPointCount, gaugeToRows, sumToRows,
        numberDataPointsToRows, histogramToRows, summaryToRows, exponentialHistogramToRows]

/-- Claim C1: for each of the three projection functions, the number of
rows equals the total count of leaf records (spans, metric data points, log
records) summed across all resource/scope groupings of the batch, and the
empty batch yields the empty row slice (the functions are total, so no
error is possible). -/
theorem c1_row_counts :
    (∀ td : Traces, (tracesToRows td).length = td.spanCount) ∧
    (∀ md : Metrics, (metricsToRows md).length = md.dataPointCount) ∧
    (∀ ld : Logs, (logsToRows ld).length = ld.logRecordCount) ∧
    tracesToRows ⟨[]⟩ = [] ∧ metricsToRows ⟨[]⟩ = [] ∧ logsToRows ⟨[]⟩ = [] := by
  refine ⟨fun td => ?_, fun md => ?_, fun ld => ?_, rfl, rfl, rfl⟩
  · simp [tracesToRows, Traces.spanCount, Function.comp_def]
  · simp [metricsToRows, Metrics.dataPointCount, metricToRows_length, Function.comp_def]
  · simp [logsToRows, Logs.logRecordCount, Function.comp_def]

/-!  Claim C2: the value coercion layer. -/

/-- Claim C2, counterexample: the coercion layer does not accept every
integer width.  `asInt64` rejects an `int32` input and `asFloat64` rejects a
`uint64` input, both with a type-mismatch error, refuting "accepts an input
of any integer width, signed or unsigned" and "accepts ... any integer
input". -/
theorem c2_counterexample :
    asInt64 (BQValue.int32 7) =
      .error (.typeMismatch "int64-compatible value" "int32") ∧
    asFloat64 (BQValue.uint64 7) =
      .error (.typeMismatch "float64-compatible value" "uint64") :=
  ⟨rfl, rfl⟩

/-- Claim C2, amended: for an integer-kind target field the coercion
accepts exactly the widths `int`, `int64`, `uint64` (two's-complement
reinterpretation) and `uint32` (widening), plus `float64` (truncation) and
`time.Time` values, the latter converting to microseconds since the Unix
epoch; for a double-kind target it accepts exactly 32- and 64-bit floating
input and the `int`/`int64` integer widths.  All other integer widths
(e.g. `int32`, `uint16`) are rejected with a type-mismatch error. -/
theorem c2_amended :
    (∀ n : Int, asInt64 (.int n) = .ok n) ∧
    (∀ n : Int, asInt64 (.int64 n) = .ok n) ∧
    (∀ n : Nat, asInt64 (.uint64 n) = .ok (uint64ToInt64 n)) ∧
    (∀ n : Nat, asInt64 (.uint32 n) = .ok (n : Int)) ∧
    (∀ f : GoFloat, asInt64 (.float64 f) = .ok (float64ToInt64 f)) ∧
    (∀ t : GoTime, asInt64 (.time t) = .ok t.unixMicro) ∧
    (∀ n : Int, asInt64 (.int32 n) =
      .error (.typeMismatch "int64-compatible value" "int32")) ∧
    (∀ n : Nat, asInt64 (.uint16 n) =
      .error (.typeMismatch "int64-compatible value" "uint16")) ∧
    (∀ f : GoFloat, asFloat64 (.float64 f) = .ok f) ∧
    (∀ f : GoFloat, asFloat64 (.float32 f) = .ok f) ∧
    (∀ n : Int, asFloat64 (.int n) = .ok (.finite n)) ∧
    (∀ n : Int, asFloat64 (.int64 n) = .ok (.finite n)) ∧
    (∀ n : Int, asFloat64 (.int32 n) =
      .error (.typeMismatch "float64-compatible value" "int32")) ∧
    (∀ n : Nat, asFloat64 (.uint64 n) =
      .error (.typeMismatch "float64-compatible value" "uint64")) ∧
    (∀ n : Nat, asFloat64 (.uint32 n) =
      .error (.typeMismatch "float64-compatible value" "uint32")) ∧
    (∀ t : GoTime, asFloat64 (.time t) =
      .error (.typeMismatch "float64-compatible value" "time.Time")) :=
  ⟨fun _ => rfl, fun _ => rfl, fun _ => rfl, fun _ => rfl, fun _ => rfl, fun _ => rfl,
   fun _ => rfl, fun _ => rfl, fun _ => rfl, fun _ => rfl, fun _ => rfl, fun _ => rfl,
   fun _ => rfl, fun _ => rfl, fun _ => rfl, fun _ => rfl⟩

/-!  Claim C8: unrecognized metric types. -/

/-- Claim C8: a metric whose type is none of the five known variants
(`pmetric.MetricTypeEmpty`, the only other value of `pmetric.MetricType`)
contributes zero rows, whatever the surrounding batch supplies for the
resource, schema URLs and scope; `metricToRows` is total, so no error is
returned or signalled. -/
theorem c8_unknown_metric_type (name description unit : String) (ra : AttrMap)
    (ru : String) (sc : InstrumentationScope) (su : String) :
    metricToRows ⟨name, description, unit, MetricData.empty⟩ ra ru sc su = [] :=
  rfl

/-!  Claim C10: identifier rendering. -/

theorem hexEncode_length (bs : List Nat) : (hexEncode bs).length = 2 * bs.length := by
  induction bs with
  | nil => rfl
  | cons b rest ih =>
    simp only [hexEncode, String.length_append, ih]
    change 2 + 2 * rest.length = 2 * (rest.length + 1)
    omega

/-- Claim C10: an all-zero trace identifier renders as 32 `'0'` characters,
and every 16-byte trace identifier renders as 32 hex characters — never the
empty string — wherever it appears (trace rows, log rows, links, and
exemplars all render it with `traceIDToHex`); span identifiers, rendered by
`spanIDToHex` (used for `span_id`/`parent_span_id` of trace rows, log rows,
links and exemplars), are the only identifiers that render as the empty
string when all-zero. -/
theorem c10_id_rendering :
    traceIDToHex ⟨List.replicate 16 0⟩ = "00000000000000000000000000000000" ∧
    (∀ id : TraceID, id.bytes.length = 16 → (traceIDToHex id).length = 32) ∧
    spanIDToHex ⟨List.replicate 8 0⟩ = "" ∧
    (∀ id : SpanID, id.bytes.all (fun b => b == 0) = false →
      spanIDToHex id = hexEncode id.bytes) ∧
    (∀ td : Traces, ∀ r ∈ tracesToRows td, ∃ span : Span,
      r.find "trace_id" = some (.str (traceIDToHex span.traceId)) ∧
      r.find "span_id" = some (.str (spanIDToHex span.spanId)) ∧
      r.find "parent_span_id" = some (.str (spanIDToHex span.parentSpanId))) ∧
    (∀ ld : Logs, ∀ r ∈ logsToRows ld, ∃ lr : LogRecord,
      r.find "trace_id" = some (.str (traceIDToHex lr.traceId)) ∧
      r.find "span_id" = some (.str (spanIDToHex lr.spanId))) ∧
    (∀ l : SpanLink,
      findKey l.jv.objFields "trace_id" = some (.str (traceIDToHex l.traceId)) ∧
      findKey l.jv.objFields "span_id" = some (.str (spanIDToHex l.spanId))) ∧
    (∀ ex : Exemplar,
      findKey ex.jv.objFields "trace_id" = some (.str (traceIDToHex ex.traceId)) ∧
      findKey ex.jv.objFields "span_id" = some (.str (spanIDToHex ex.spanId))) := by
  refine ⟨by decide, fun id h => by rw [traceIDToHex, hexEncode_length, h], rfl,
    fun id h => by simp [spanIDToHex, h], ?_, ?_, fun l => ⟨rfl, rfl⟩, fun ex => ⟨rfl, rfl⟩⟩
  · intro td r hr
    simp only [tracesToRows, List.mem_flatMap, List.mem_map] at hr
    obtain ⟨rs, _, ss, _, span, _, hrow⟩ := hr
    exact ⟨span, by rw [← hrow]; rfl, by rw [← hrow]; rfl, by rw [← hrow]; rfl⟩
  · intro ld r hr
    simp only [logsToRows, List.mem_flatMap, List.mem_map] at hr
    obtain ⟨rl, _, sl, _, lr, _, hrow⟩ := hr
    exact ⟨lr, by rw [← hrow]; rfl, by rw [← hrow]; rfl⟩

/-- Witness for `c10_id_rendering`: its hypotheses hold at concrete
inputs. -/
theorem c10_witness :
    (traceIDToHex ⟨List.replicate 16 1⟩).length = 32 ∧
    (∃ span : Span,
      Row.find ((tracesToRows c10td).headD []) "trace_id" =
        some (.str (traceIDToHex span.traceId)) ∧
      Row.find ((tracesToRows c10td).headD []) "span_id" =
        some (.str (spanIDToHex span.spanId)) ∧
      Row.find ((tracesToRows c10td).headD []) "parent_span_id" =
        some (.str (spanIDToHex span.parentSpanId))) ∧
    spanIDToHex ⟨List.replicate 8 5⟩ = hexEncode (List.replicate 8 5) :=
  ⟨c10_id_rendering.2.1 ⟨List.replicate 16 1⟩ (by decide),
   c10_id_rendering.2.2.2.2.1 c10td ((tracesToRows c10td).headD []) (by decide),
   c10_id_rendering.2.2.2.1 ⟨List.replicate 8 5⟩ (by decide)⟩

/-!  Claim C3: gauge/sum value columns. -/

/-- Claim C3, counterexample: for a gauge data point with an empty value
type, the projected row populates neither `value_int` nor `value_double`
(both are present but null), refuting "populates exactly one of the
`value_int` and `value_double` columns" as a statement about every gauge or
sum number data point. -/
theorem c3_counterexample :
    (metricsToRows c3md).map
      (fun r => (r.find "value_int", r.find "value_double")) =
      [(some BQValue.null, some BQValue.null)] := by
  decide

theorem find_value_cols_of_number_row (base : Row) (mt : String) (dp : NumberDataPoint)
    (hbi : findKey base "value_int" = some .null)
    (hbd : findKey base "value_double" = some .null) :
    ∀ r, r = setNumberValue
        ((setCommonDataPointFields (cloneMetricRow base mt)
            dp.timestamp dp.startTimestamp dp.flags dp.attributes).set
          "exemplars" (.str (exemplarsToJSON dp.exemplars))) dp →
      ((∀ n, dp.value = .intVal n →
        r.find "value_int" = some (.int64 n) ∧ r.find "value_double" = some .null) ∧
       (∀ d, dp.value = .doubleVal d →
        r.find "value_int" = some .null ∧ r.find "value_double" = some (.float64 d)) ∧
       (dp.value = .empty →
        r.find "value_int" = some .null ∧ r.find "value_double" = some .null)) := by
  intro r hr
  subst hr
  refine ⟨fun n hn => ?_, fun d hd => ?_, fun he => ?_⟩
  · constructor <;>
      simp [setNumberValue, hn, Row.find, Row.set, setCommonDataPointFields,
        cloneMetricRow, findKey_setKey]
  · constructor <;>
      simp [setNumberValue, hd, Row.find, Row.set, setCommonDataPointFields,
        cloneMetricRow, findKey_setKey]
  · constructor <;>
      simp [setNumberValue, he, Row.find, Row.set, setCommonDataPointFields,
        cloneMetricRow, findKey_setKey, hbi, hbd]

theorem metricBaseRow_value_int (m : Metric) (ra : AttrMap) (ru : String)
    (sc : InstrumentationScope) (su : String) :
    findKey (metricBaseRow m ra ru sc su) "value_int" = some .null := rfl

theorem metricBaseRow_value_double (m : Metric) (ra : AttrMap) (ru : String)
    (sc : InstrumentationScope) (su : String) :
    findKey (metricBaseRow m ra ru sc su) "value_double" = some .null := rfl

theorem metricToRows_value_cols_null (m : Metric) (ra : AttrMap) (ru : String)
    (sc : InstrumentationScope) (su : String) :
    ∀ r ∈ metricToRows m ra ru sc su,
      (r.find "value_int" = some .null ∧ r.find "value_double" = some .null) ∨
      (∃ n, r.find "value_int" = some (.int64 n) ∧ r.find "value_double" = some .null) ∨
      (∃ d, r.find "value_int" = some .null ∧ r.find "value_double" = some (.float64 d)) := by
  intro r hr
  cases hdata : m.data with
  | gauge dps =>
    rw [metricToRows, hdata] at hr
    simp only [gaugeToRows, numberDataPointsToRows, List.mem_map] at hr
    obtain ⟨dp, _, hrow⟩ := hr
    have h := find_value_cols_of_number_row _ "GAUGE" dp
      (metricBaseRow_value_int ..) (metricBaseRow_value_double ..) r hrow.symm
    cases hv : dp.value with
    | intVal n => exact .inr (.inl ⟨n, h.1 n hv⟩)
    | doubleVal d => exact .inr (.inr ⟨d, h.2.1 d hv⟩)
    | empty => exact .inl (h.2.2 hv)
  | sum aggT mono dps =>
    rw [metricToRows, hdata] at hr
    simp only [sumToRows, numberDataPointsToRows, List.mem_map] at hr
    obtain ⟨dp, _, hrow⟩ := hr
    have h := find_value_cols_of_number_row
      (((metricBaseRow m ra ru sc su).set
          "aggregation_temporality" (.str (aggregationTemporalityToString aggT))).set
        "is_monotonic" (.bool mono)) "SUM" dp
      (by simp [Row.set, findKey_setKey, metricBaseRow, findKey])
      (by simp [Row.set, findKey_setKey, metricBaseRow, findKey]) r hrow.symm
    cases hv : dp.value with
    | intVal n => exact .inr (.inl ⟨n, h.1 n hv⟩)
    | doubleVal d => exact .inr (.inr ⟨d, h.2.1 d hv⟩)
    | empty => exact .inl (h.2.2 hv)
  | histogram aggT dps =>
    rw [metricToRows, hdata] at hr
    simp only [histogramToRows, List.mem_map] at hr
    obtain ⟨dp, _, hrow⟩ := hr
    refine .inl ?_
    constructor <;>
      (rw [← hrow]
       simp [Row.find, Row.set, findKey_setKey, findKey_maybeSetFloat,
         setCommonDataPointFields, cloneMetricRow, metricBaseRow, findKey])
  | summary dps =>
    rw [metricToRows, hdata] at hr
    simp only [summaryToRows, List.mem_map] at hr
    obtain ⟨dp, _, hrow⟩ := hr
    refine .inl ?_
    constructor <;>
      (rw [← hrow]
       simp [Row.find, Row.set, findKey_setKey,
         setCommonDataPointFields, cloneMetricRow, metricBaseRow, findKey])
  | expHistogram aggT dps =>
    rw [metricToRows, hdata] at hr
    simp only [exponentialHistogramToRows, List.mem_map] at hr
    obtain ⟨dp, _, hrow⟩ := hr
    refine .inl ?_
    constructor <;>
      (rw [← hrow]
       simp [Row.find, Row.set, findKey_setKey, findKey_maybeSetFloat,
         setCommonDataPointFields, cloneMetricRow, metricBaseRow, findKey])
  | empty =>
    rw [metricToRows, hdata] at hr
    simp at hr

/-- Claim C3, amended: in every row produced by the metrics projection,
`value_int` and `value_double` are never both populated; and for a gauge or
sum data point the row populates exactly the column matching the point's
declared value kind — `value_int` for an integer value, `value_double` for a
double value, with the other null — while a data point whose value kind is
empty (unset) leaves both columns null. -/
theorem c3_amended :
    (∀ md : Metrics, ∀ r ∈ metricsToRows md,
      ¬(r.populated "value_int" = true ∧ r.populated "value_double" = true)) ∧
    (∀ (m : Metric) (ra : AttrMap) (ru : String) (sc : InstrumentationScope)
        (su : String) (dps : List NumberDataPoint) (i : Nat) (r : Row)
        (dp : NumberDataPoint),
      (m.data = MetricData.gauge dps ∨
        ∃ aggT mono, m.data = MetricData.sum aggT mono dps) →
      (metricToRows m ra ru sc su)[i]? = some r → dps[i]? = some dp →
      ((∀ n, dp.value = .intVal n →
        r.find "value_int" = some (.int64 n) ∧ r.find "value_double" = some .null) ∧
       (∀ d, dp.value = .doubleVal d →
        r.find "value_int" = some .null ∧ r.find "value_double" = some (.float64 d)) ∧
       (dp.value = .empty →
        r.find "value_int" = some .null ∧ r.find "value_double" = some .null))) := by
  constructor
  · intro md r hr
    simp only [metricsToRows, List.mem_flatMap] at hr
    obtain ⟨rm, _, sm, _, m, _, hmem⟩ := hr
    rcases metricToRows_value_cols_null m rm.resource.attributes rm.schemaUrl sm.scope
        sm.schemaUrl r hmem with h | ⟨n, h⟩ | ⟨d, h⟩ <;>
      simp [Row.populated, h.1, h.2]
  · intro m ra ru sc su dps i r dp hdata hrow hdp
    have key : ∃ base mt, findKey base "value_int" = some .null ∧
        findKey base "value_double" = some .null ∧
        metricToRows m ra ru sc su = numberDataPointsToRows dps base mt := by
      rcases hdata with h | ⟨aggT, mono, h⟩
      · exact ⟨metricBaseRow m ra ru sc su, "GAUGE",
          metricBaseRow_value_int .., metricBaseRow_value_double ..,
          by rw [metricToRows, h]; rfl⟩
      · refine ⟨((metricBaseRow m ra ru sc su).set
            "aggregation_temporality" (.str (aggregationTemporalityToString aggT))).set
            "is_monotonic" (.bool mono), "SUM", ?_, ?_, by rw [metricToRows, h]; rfl⟩ <;>
          simp [Row.set, findKey_setKey, metricBaseRow, findKey]
    obtain ⟨base, mt, hbi, hbd, heq⟩ := key
    rw [heq] at hrow
    simp only [numberDataPointsToRows, List.getElem?_map, hdp, Option.map_some] at hrow
    cases hrow
    exact find_value_cols_of_number_row base mt dp hbi hbd _ rfl

/-- Witness for `c3_amended`: a concrete sum metric with one integer-valued
point populates `value_int` and leaves `value_double` null. -/
theorem c3_witness :
    Row.find ((metricToRows ⟨"m", "", "", .sum .delta true [⟨⟨1⟩, ⟨0⟩, 0, [], [], .intVal 42⟩]⟩
        [] "" ⟨"lib", "1.0", []⟩ "").headD []) "value_int" = some (.int64 42) ∧
    Row.find ((metricToRows ⟨"m", "", "", .sum .delta true [⟨⟨1⟩, ⟨0⟩, 0, [], [], .intVal 42⟩]⟩
        [] "" ⟨"lib", "1.0", []⟩ "").headD []) "value_double" = some .null :=
  (c3_amended.2 ⟨"m", "", "", .sum .delta true [⟨⟨1⟩, ⟨0⟩, 0, [], [], .intVal 42⟩]⟩
    [] "" ⟨"lib", "1.0", []⟩ "" [⟨⟨1⟩, ⟨0⟩, 0, [], [], .intVal 42⟩] 0
    ((metricToRows ⟨"m", "", "", .sum .delta true [⟨⟨1⟩, ⟨0⟩, 0, [], [], .intVal 42⟩]⟩
        [] "" ⟨"lib", "1.0", []⟩ "").headD [])
    ⟨⟨1⟩, ⟨0⟩, 0, [], [], .intVal 42⟩
    (.inr ⟨.delta, true, rfl⟩) rfl rfl).1 42 rfl

/-!  Claims C4, C5, C9: the dynamic row encoder. -/

theorem encodeFields_find_ok (desc : MessageDesc) (l : List (String × BQValue)) :
    ∀ (m msg : Msg), encodeFields desc l m = .ok msg →
      ∀ k, (findKey msg k).isSome = true ↔
        ((findKey m k).isSome = true ∨
         ∃ v, (k, v) ∈ l ∧ v ≠ .null ∧
           (desc.fields.find? (fun f => f.name = k)).isSome = true) := by
  induction l with
  | nil =>
    intro m msg h k
    cases h
    simp
  | cons kv rest ih =>
    obtain ⟨name, value⟩ := kv
    intro m msg h k
    cases hfind : desc.fields.find? (fun f => f.name = name) with
    | none =>
      rw [encodeFields] at h
      simp only [hfind] at h
      rw [ih m msg h k]
      constructor
      · rintro (hm | ⟨v, hv, hvn, hf⟩)
        · exact .inl hm
        · exact .inr ⟨v, List.mem_cons_of_mem _ hv, hvn, hf⟩
      · rintro (hm | ⟨v, hv, hvn, hf⟩)
        · exact .inl hm
        · rcases List.mem_cons.mp hv with he | hv'
          · cases he
            rw [hfind] at hf
            simp at hf
          · exact .inr ⟨v, hv', hvn, hf⟩
    | some fd =>
      rw [encodeFields] at h
      simp only [hfind] at h
      by_cases hnull : value = .null
      · rw [if_pos hnull] at h
        rw [ih m msg h k]
        constructor
        · rintro (hm | ⟨v, hv, hvn, hf⟩)
          · exact .inl hm
          · exact .inr ⟨v, List.mem_cons_of_mem _ hv, hvn, hf⟩
        · rintro (hm | ⟨v, hv, hvn, hf⟩)
          · exact .inl hm
          · rcases List.mem_cons.mp hv with he | hv'
            · cases he
              exact absurd hnull hvn
            · exact .inr ⟨v, hv', hvn, hf⟩
      · rw [if_neg hnull] at h
        cases hset : setFieldValue fd value with
        | error e =>
          simp only [hset] at h
          cases h
        | ok rv =>
          simp only [hset] at h
          rw [ih _ msg h k, findKey_setKey]
          by_cases hk : name = k
          · subst hk
            simp only [if_pos rfl, Option.isSome_some]
            constructor
            · intro _
              exact .inr ⟨value, List.mem_cons_self .., hnull, by rw [hfind]; rfl⟩
            · intro _
              exact .inl rfl
          · rw [if_neg hk]
            constructor
            · rintro (hm | ⟨v, hv, hvn, hf⟩)
              · exact .inl hm
              · exact .inr ⟨v, List.mem_cons_of_mem _ hv, hvn, hf⟩
            · rintro (hm | ⟨v, hv, hvn, hf⟩)
              · exact .inl hm
              · rcases List.mem_cons.mp hv with he | hv'
                · cases he
                  exact absurd rfl hk
                · exact .inr ⟨v, hv', hvn, hf⟩

theorem encodeFields_error (desc : MessageDesc) (l : List (String × BQValue)) :
    ∀ (m : Msg) (e : FieldEncodingError), encodeFields desc l m = .error e →
      ∃ (v : BQValue) (fd : FieldDesc), (e.column, v) ∈ l ∧ v ≠ .null ∧
        desc.fields.find? (fun f => f.name = e.column) = some fd ∧
        setFieldValue fd v = .error e.err := by
  induction l with
  | nil =>
    intro m e h
    cases h
  | cons kv rest ih =>
    obtain ⟨name, value⟩ := kv
    intro m e h
    cases hfind : desc.fields.find? (fun f => f.name = name) with
    | none =>
      rw [encodeFields] at h
      simp only [hfind] at h
      obtain ⟨v, fd, hv, hvn, hf, hs⟩ := ih m e h
      exact ⟨v, fd, List.mem_cons_of_mem _ hv, hvn, hf, hs⟩
    | some fd =>
      rw [encodeFields] at h
      simp only [hfind] at h
      by_cases hnull : value = .null
      · rw [if_pos hnull] at h
        obtain ⟨v, fd', hv, hvn, hf, hs⟩ := ih m e h
        exact ⟨v, fd', List.mem_cons_of_mem _ hv, hvn, hf, hs⟩
      · rw [if_neg hnull] at h
        cases hset : setFieldValue fd value with
        | error ce =>
          simp only [hset] at h
          cases h
          exact ⟨value, fd, List.mem_cons_self .., hnull, hfind, hset⟩
        | ok rv =>
          simp only [hset] at h
          obtain ⟨v, fd', hv, hvn, hf, hs⟩ := ih _ e h
          exact ⟨v, fd', List.mem_cons_of_mem _ hv, hvn, hf, hs⟩

theorem encodeFields_isErr_iff (desc : MessageDesc) (l : List (String × BQValue)) :
    ∀ m : Msg, isErr (encodeFields desc l m) = true ↔
      ∃ (name : String) (v : BQValue) (fd : FieldDesc),
        (name, v) ∈ l ∧ v ≠ .null ∧
        desc.fields.find? (fun f => f.name = name) = some fd ∧
        isErr (setFieldValue fd v) = true := by
  induction l with
  | nil =>
    intro m
    simp [encodeFields, isErr]
  | cons kv rest ih =>
    obtain ⟨name, value⟩ := kv
    intro m
    cases hfind : desc.fields.find? (fun f => f.name = name) with
    | none =>
      rw [encodeFields]
      simp only [hfind]
      rw [ih m]
      constructor
      · rintro ⟨n, v, fd, hv, hvn, hf, hs⟩
        exact ⟨n, v, fd, List.mem_cons_of_mem _ hv, hvn, hf, hs⟩
      · rintro ⟨n, v, fd, hv, hvn, hf, hs⟩
        rcases List.mem_cons.mp hv with he | hv'
        · cases he
          rw [hfind] at hf
          cases hf
        · exact ⟨n, v, fd, hv', hvn, hf, hs⟩
    | some fd =>
      rw [encodeFields]
      simp only [hfind]
      by_cases hnull : value = .null
      · rw [if_pos hnull, ih m]
        constructor
        · rintro ⟨n, v, fd', hv, hvn, hf, hs⟩
          exact ⟨n, v, fd', List.mem_cons_of_mem _ hv, hvn, hf, hs⟩
        · rintro ⟨n, v, fd', hv, hvn, hf, hs⟩
          rcases List.mem_cons.mp hv with he | hv'
          · cases he
            exact absurd hnull hvn
          · exact ⟨n, v, fd', hv', hvn, hf, hs⟩
      · rw [if_neg hnull]
        cases hset : setFieldValue fd value with
        | error ce =>
          simp only [hset, isErr, true_iff]
          exact ⟨name, value, fd, List.mem_cons_self .., hnull, hfind,
            by simp [hset, isErr]⟩
        | ok rv =>
          simp only [hset]
          rw [ih _]
          constructor
          · rintro ⟨n, v, fd', hv, hvn, hf, hs⟩
            exact ⟨n, v, fd', List.mem_cons_of_mem _ hv, hvn, hf, hs⟩
          · rintro ⟨n, v, fd', hv, hvn, hf, hs⟩
            rcases List.mem_cons.mp hv with he | hv'
            · cases he
              rw [hfind] at hf
              cases hf
              rw [hset] at hs
              simp [isErr] at hs
            · exact ⟨n, v, fd', hv', hvn, hf, hs⟩

theorem setFieldValue_error_iff (fd : FieldDesc) (k : ScalarKind) (v : BQValue)
    (h : fieldKindOf fd = some k) :
    ∀ ce, setFieldValue fd v = .error ce ↔ toProtoreflectValue k v = .error ce := by
  intro ce
  cases hk : fd.kind with
  | scalar k' =>
    simp only [fieldKindOf, hk] at h
    cases h
    simp only [setFieldValue, hk]
  | message inner =>
    simp only [fieldKindOf, hk] at h
    simp only [setFieldValue, hk, dynamicWrapperValue]
    cases hf : inner.find? (fun f => f.name = "value") with
    | none =>
      rw [hf] at h
      simp at h
    | some f =>
      rw [hf] at h
      simp only [Option.map] at h
      cases h
      simp only [hf]
      cases htp : toProtoreflectValue f.kind v <;> simp [Except.map, htp]

theorem setFieldValue_isErr (fd : FieldDesc) (k : ScalarKind) (v : BQValue)
    (h : fieldKindOf fd = some k) :
    isErr (setFieldValue fd v) = isErr (toProtoreflectValue k v) := by
  cases hs : setFieldValue fd v with
  | error ce =>
    rw [(setFieldValue_error_iff fd k v h ce).mp hs]
  | ok rv =>
    cases ht : toProtoreflectValue k v with
    | error ce =>
      have hcontra := (setFieldValue_error_iff fd k v h ce).mpr ht
      rw [hs] at hcontra
      cases hcontra
    | ok rv' => rfl

/-- Claim C4: when `encodeRow` succeeds on a row (whose keys are unique, as
Go map keys are), every descriptor field is set in the constructed message
exactly when its column is present in the row with a non-null value;
columns absent from the row or present with a null value are left unset,
never set to a zero value. -/
theorem c4_unset_iff (desc : MessageDesc) (r : Row) (msg : Msg)
    (hnd : (r.map Prod.fst).Nodup) (h : encodeRow desc r = .ok msg) :
    ∀ f ∈ desc.fields,
      ((findKey msg f.name).isSome = true ↔
        ∃ v, findKey r f.name = some v ∧ v ≠ .null) := by
  intro f hf
  rw [encodeFields_find_ok desc r [] msg h f.name]
  constructor
  · rintro (hm | ⟨v, hv, hvn, _⟩)
    · simp [findKey] at hm
    · exact ⟨v, findKey_eq_some_of_mem r f.name v hnd hv, hvn⟩
  · rintro ⟨v, hv, hvn⟩
    refine .inr ⟨v, mem_of_findKey_eq_some hv, hvn, ?_⟩
    cases hfind : desc.fields.find? (fun f' => f'.name = f.name) with
    | none =>
      have := List.find?_eq_none.mp hfind f hf
      simp at this
    | some fd => rfl

/-- Witness for `c4_unset_iff` at a concrete descriptor and row: the
present non-null column `a` is set in the message. -/
theorem c4_witness :
    (findKey ([("a", RValue.str "x")] : Msg) "a").isSome = true ↔
      ∃ v, findKey ([("a", BQValue.str "x"), ("b", BQValue.null)] : Row) "a" = some v ∧
        v ≠ .null :=
  c4_unset_iff ⟨[⟨"a", .scalar .stringKind⟩, ⟨"b", .scalar .int64Kind⟩]⟩
    [("a", .str "x"), ("b", .null)] [("a", RValue.str "x")] (by decide) rfl
    ⟨"a", .scalar .stringKind⟩ (by decide)

/-- Claim C5: over a descriptor whose fields all carry a usable wire kind
(as those built by the schema adapter do — each JSON wrapper has its single
`value` field), encoding a row fails exactly when some non-null row value
whose column names a descriptor field cannot be coerced to that field's
declared wire kind; the reported `FieldEncodingError` names the offending
column and carries the coercion error (expected kind and actual `%T` type),
and on failure no message (hence no serialized bytes) is produced — the
`Except` returns either bytes or an error, never both. -/
theorem c5_error_iff (desc : MessageDesc) (r : Row)
    (hwf : ∀ fd ∈ desc.fields, (fieldKindOf fd).isSome = true) :
    (isErr (encodeRow desc r) = true ↔
      ∃ (name : String) (v : BQValue) (fd : FieldDesc) (k : ScalarKind),
        (name, v) ∈ r ∧ v ≠ .null ∧
        desc.fields.find? (fun f => f.name = name) = some fd ∧
        fieldKindOf fd = some k ∧ isErr (toProtoreflectValue k v) = true) ∧
    (∀ e, encodeRow desc r = .error e →
      ∃ (v : BQValue) (fd : FieldDesc) (k : ScalarKind),
        (e.column, v) ∈ r ∧ v ≠ .null ∧
        desc.fields.find? (fun f => f.name = e.column) = some fd ∧
        fieldKindOf fd = some k ∧ toProtoreflectValue k v = .error e.err) := by
  constructor
  · rw [encodeRow, encodeFields_isErr_iff desc r []]
    constructor
    · rintro ⟨name, v, fd, hv, hvn, hf, hs⟩
      obtain ⟨k, hk⟩ := Option.isSome_iff_exists.mp
        (hwf fd (List.mem_of_find?_eq_some hf))
      exact ⟨name, v, fd, k, hv, hvn, hf, hk, by rw [← setFieldValue_isErr fd k v hk, hs]⟩
    · rintro ⟨name, v, fd, k, hv, hvn, hf, hk, hs⟩
      exact ⟨name, v, fd, hv, hvn, hf, by rw [setFieldValue_isErr fd k v hk, hs]⟩
  · intro e he
    obtain ⟨v, fd, hv, hvn, hf, hs⟩ := encodeFields_error desc r [] e he
    obtain ⟨k, hk⟩ := Option.isSome_iff_exists.mp
      (hwf fd (List.mem_of_find?_eq_some hf))
    exact ⟨v, fd, k, hv, hvn, hf, hk, (setFieldValue_error_iff fd k v hk e.err).mp hs⟩

/-- Witness for `c5_error_iff`: a non-numeric string in an INT64 column
makes the encoder fail. -/
theorem c5_witness :
    isErr (encodeRow ⟨[⟨"n", FieldKind.scalar .int64Kind⟩]⟩
      [("n", BQValue.str "oops")]) = true :=
  (c5_error_iff ⟨[⟨"n", .scalar .int64Kind⟩]⟩ [("n", .str "oops")] (by decide)).1.mpr
    ⟨"n", .str "oops", ⟨"n", .scalar .int64Kind⟩, .int64Kind, by decide, by decide,
      rfl, rfl, rfl⟩

theorem encodeFields_filter (desc : MessageDesc) (l : List (String × BQValue)) :
    ∀ m : Msg, encodeFields desc l m =
      encodeFields desc
        (l.filter (fun kv => (desc.fields.find? (fun f => f.name = kv.1)).isSome)) m := by
  induction l with
  | nil => intro m; rfl
  | cons kv rest ih =>
    obtain ⟨name, value⟩ := kv
    intro m
    cases hfind : desc.fields.find? (fun f => f.name = name) with
    | none =>
      have hfil : (List.filter (fun kv => (desc.fields.find? (fun f => f.name = kv.1)).isSome)
          ((name, value) :: rest)) =
          rest.filter (fun kv => (desc.fields.find? (fun f => f.name = kv.1)).isSome) := by
        simp [List.filter, hfind]
      rw [hfil, encodeFields]
      simp only [hfind]
      exact ih m
    | some fd =>
      have hfil : (List.filter (fun kv => (desc.fields.find? (fun f => f.name = kv.1)).isSome)
          ((name, value) :: rest)) =
          (name, value) ::
            rest.filter (fun kv => (desc.fields.find? (fun f => f.name = kv.1)).isSome) := by
        simp [List.filter, hfind]
      rw [hfil]
      simp only [encodeFields, hfind]
      by_cases hnull : value = .null
      · simp only [if_pos hnull]
        exact ih m
      · simp only [if_neg hnull]
        cases hset : setFieldValue fd value with
        | error e => simp only [hset]
        | ok rv =>
          simp only [hset]
          exact ih _

/-- Claim C9: the encoder silently skips any row key that names no
descriptor field — encoding a row is the same as encoding the row with all
unknown columns removed (so an out-of-schema column never causes an
encoding error), and no unknown column ever appears in the constructed
message.  The spec's "row keys must be a subset of the schema's column
names" invariant is thus never enforced by the encoder. -/
theorem c9_encoder_skips_unknown :
    (∀ (desc : MessageDesc) (r : Row),
      encodeRow desc r = encodeRow desc
        (r.filter (fun kv => (desc.fields.find? (fun f => f.name = kv.1)).isSome))) ∧
    (∀ (desc : MessageDesc) (r : Row) (msg : Msg) (k : String),
      encodeRow desc r = .ok msg →
      desc.fields.find? (fun f => f.name = k) = none →
      findKey msg k = none) := by
  constructor
  · intro desc r
    exact encodeFields_filter desc r []
  · intro desc r msg k h hfind
    have hiff := encodeFields_find_ok desc r [] msg h k
    rw [hfind] at hiff
    simp only [findKey, Option.isSome_none, Bool.false_eq_true, false_or] at hiff
    cases hmsg : findKey msg k with
    | none => rfl
    | some rv =>
      obtain ⟨v, _, _, hfalse⟩ := hiff.mp (by rw [hmsg]; rfl)
      simp at hfalse

/-- Witness for `c9_encoder_skips_unknown`: the out-of-schema column `zzz`
does not appear in the encoded message and causes no error. -/
theorem c9_witness :
    findKey ([("a", RValue.str "x")] : Msg) "zzz" = none :=
  c9_encoder_skips_unknown.2 ⟨[⟨"a", .scalar .stringKind⟩]⟩
    [("a", .str "x"), ("zzz", .bool true)] [("a", RValue.str "x")] "zzz" rfl rfl

/-!  Claim C7: instrumentation-scope JSON. -/

/-- Claim C7: the scope JSON object carries the `name` and `version` keys
always (with the scope's name and version as their string values) and an
`attributes` key exactly when the scope's attribute collection is
non-empty; the attribute-free scope named `lib` with version `1.0` renders
as exactly `\x7b"name":"lib","version":"1.0"\x7d`. -/
theorem c7_scope_json :
    (∀ scope : InstrumentationScope,
      (scopeJval scope).objFields.map Prod.fst =
        if scope.attributes.length > 0 then ["attributes", "name", "version"]
        else ["name", "version"]) ∧
    (∀ scope : InstrumentationScope,
      findKey (scopeJval scope).objFields "name" = some (.str scope.name) ∧
      findKey (scopeJval scope).objFields "version" = some (.str scope.version)) ∧
    scopeToJSON ⟨"lib", "1.0", []⟩ = "\x7b\"name\":\"lib\",\"version\":\"1.0\"\x7d" := by
  refine ⟨fun scope => ?_, fun scope => ?_, by decide⟩
  · by_cases h : scope.attributes.length > 0 <;> simp [scopeJval, Jval.objFields, h]
  · by_cases h : scope.attributes.length > 0 <;>
      simp [scopeJval, Jval.objFields, h, findKey]

/-!  Claim C6: JSON columns hold valid JSON.

The `finiteB` predicates (defined with the data model above) say that every `float64` reaching a
JSON-marshalled position of a batch is finite; that is exactly the condition
under which `encoding/json.Marshal` succeeds (and hence `marshalJSON` does
not degrade to the empty string). -/

theorem allFinite_double (d : GoFloat) : (Jval.double d).allFinite = d.isFinite := by
  rw [Jval.allFinite]

theorem allFinite_str (str : String) : (Jval.str str).allFinite = true := rfl

theorem allFinite_int (n : Int) : (Jval.int n).allFinite = true := rfl

theorem allFinite_null : Jval.allFinite .null = true := rfl

theorem allFinite_bool (b : Bool) : (Jval.bool b).allFinite = true := rfl

theorem allFinite_arr (xs : List Jval) : (Jval.arr xs).allFinite = jlistAllFinite xs := by
  rw [Jval.allFinite]

theorem allFinite_obj (kvs : List (String × Jval)) :
    (Jval.obj kvs).allFinite = jobjAllFinite kvs := by
  rw [Jval.allFinite]

theorem length_render_obj_pos (kvs : List (String × Jval)) :
    0 < (Jval.render (.obj kvs)).length := by
  have : Jval.render (.obj kvs) = "\x7b" ++ jobjRender kvs ++ "\x7d" := by
    rw [Jval.render]
  rw [this, String.length_append, String.length_append]
  have h1 : ("\x7b" : String).length = 1 := rfl
  omega

theorem length_render_arr_pos (xs : List Jval) :
    0 < (Jval.render (.arr xs)).length := by
  have : Jval.render (.arr xs) = "[" ++ jlistRender xs ++ "]" := by
    rw [Jval.render]
  rw [this, String.length_append, String.length_append]
  have h1 : ("[" : String).length = 1 := rfl
  omega

theorem render_obj_head (kvs : List (String × Jval)) :
    ∃ t, Jval.render (.obj kvs) = "\x7b" ++ t := ⟨_, by rw [Jval.render]; rfl⟩

theorem render_arr_head (xs : List Jval) :
    ∃ t, Jval.render (.arr xs) = "[" ++ t := ⟨_, by rw [Jval.render]; rfl⟩

theorem marshal_obj_good (kvs : List (String × Jval)) (h : jobjAllFinite kvs = true) :
    GoodJson (marshalJSON (.obj kvs)) := by
  have hf : Jval.allFinite (.obj kvs) = true := by rw [Jval.allFinite]; exact h
  rw [marshalJSON, if_pos hf]
  refine ⟨⟨.obj kvs, hf, rfl⟩, ?_, ?_⟩
  · intro he
    have := length_render_obj_pos kvs
    rw [he] at this
    simp at this
  · obtain ⟨t, ht⟩ := render_obj_head kvs
    rw [ht]
    intro he
    have := congrArg (fun s => s.get 0) he
    simp at this
    cases this

theorem marshal_arr_good (xs : List Jval) (h : jlistAllFinite xs = true) :
    GoodJson (marshalJSON (.arr xs)) := by
  have hf : Jval.allFinite (.arr xs) = true := by rw [Jval.allFinite]; exact h
  rw [marshalJSON, if_pos hf]
  refine ⟨⟨.arr xs, hf, rfl⟩, ?_, ?_⟩
  · intro he
    have := length_render_arr_pos xs
    rw [he] at this
    simp at this
  · obtain ⟨t, ht⟩ := render_arr_head xs
    rw [ht]
    intro he
    have := congrArg (fun s => s.get 0) he
    simp at this
    cases this

theorem emptyObj_good : GoodJson "\x7b\x7d" :=
  ⟨⟨.obj [], rfl, rfl⟩, by decide, by decide⟩

theorem emptyArr_good : GoodJson "[]" :=
  ⟨⟨.arr [], rfl, rfl⟩, by decide, by decide⟩

theorem jlistAllFinite_map {α : Type} (xs : List α) (f : α → Jval) :
    jlistAllFinite (xs.map f) = xs.all (fun x => (f x).allFinite) := by
  induction xs with
  | nil => rfl
  | cons x rest ih => simp [jlistAllFinite, ih]

theorem jobjAllFinite_append (a b : List (String × Jval)) :
    jobjAllFinite (a ++ b) = (jobjAllFinite a && jobjAllFinite b) := by
  induction a with
  | nil => simp [jobjAllFinite]
  | cons kv rest ih => simp [jobjAllFinite, ih, Bool.and_assoc]

theorem attributesToJSON_good (attrs : AttrMap) (h : attrsFinite attrs = true) :
    GoodJson (attributesToJSON attrs) := by
  rw [attributesToJSON]
  by_cases hlen : attrs.length = 0
  · rw [if_pos hlen]
    exact emptyObj_good
  · rw [if_neg hlen]
    rw [attrsFinite, attrsJval, Jval.allFinite] at h
    exact marshal_obj_good _ h

theorem scopeToJSON_good (scope : InstrumentationScope)
    (h : attrsFinite scope.attributes = true) : GoodJson (scopeToJSON scope) := by
  rw [scopeToJSON, scopeJval]
  by_cases hlen : scope.attributes.length > 0
  · rw [if_pos hlen]
    refine marshal_obj_good _ ?_
    rw [attrsFinite] at h
    simp [jobjAllFinite, allFinite_str, h]
  · rw [if_neg hlen]
    refine marshal_obj_good _ ?_
    simp [jobjAllFinite, allFinite_str]

theorem eventJv_allFinite (e : SpanEvent) (h : SpanEvent.finiteB e = true) :
    (SpanEvent.jv e).allFinite = true := by
  rw [SpanEvent.finiteB, attrsFinite] at h
  simp [SpanEvent.jv, allFinite_obj, jobjAllFinite, allFinite_str, allFinite_int, h]

theorem eventsToJSON_good (evs : List SpanEvent)
    (h : evs.all SpanEvent.finiteB = true) : GoodJson (eventsToJSON evs) := by
  rw [eventsToJSON]
  by_cases hlen : evs.length = 0
  · rw [if_pos hlen]
    exact emptyArr_good
  · rw [if_neg hlen]
    refine marshal_arr_good _ ?_
    rw [jlistAllFinite_map]
    rw [List.all_eq_true] at h ⊢
    exact fun e he => eventJv_allFinite e (h e he)

theorem linkJv_allFinite (l : SpanLink) (h : SpanLink.finiteB l = true) :
    (SpanLink.jv l).allFinite = true := by
  rw [SpanLink.finiteB, attrsFinite] at h
  simp [SpanLink.jv, allFinite_obj, jobjAllFinite, allFinite_str, allFinite_int, h]

theorem linksToJSON_good (links : List SpanLink)
    (h : links.all SpanLink.finiteB = true) : GoodJson (linksToJSON links) := by
  rw [linksToJSON]
  by_cases hlen : links.length = 0
  · rw [if_pos hlen]
    exact emptyArr_good
  · rw [if_neg hlen]
    refine marshal_arr_good _ ?_
    rw [jlistAllFinite_map]
    rw [List.all_eq_true] at h ⊢
    exact fun l hl => linkJv_allFinite l (h l hl)

theorem exemplarJv_allFinite (ex : Exemplar) (h : Exemplar.finiteB ex = true) :
    (Exemplar.jv ex).allFinite = true := by
  rw [Exemplar.finiteB, attrsFinite] at h
  rw [Bool.and_eq_true] at h
  have hval := h.2
  cases hv : ex.value with
  | intVal n =>
    simp [Exemplar.jv, allFinite_obj, jobjAllFinite, jobjAllFinite_append,
      allFinite_str, allFinite_int, hv, h.1]
  | doubleVal d =>
    rw [hv] at hval
    simp [Exemplar.jv, allFinite_obj, jobjAllFinite, jobjAllFinite_append,
      allFinite_str, allFinite_double, hv, h.1]
    simpa [NumberValue.finiteB] using hval
  | empty =>
    simp [Exemplar.jv, allFinite_obj, jobjAllFinite, jobjAllFinite_append,
      allFinite_str, hv, h.1]

theorem exemplarsToJSON_good (exs : List Exemplar)
    (h : exs.all Exemplar.finiteB = true) : GoodJson (exemplarsToJSON exs) := by
  rw [exemplarsToJSON]
  by_cases hlen : exs.length = 0
  · rw [if_pos hlen]
    exact emptyArr_good
  · rw [if_neg hlen]
    refine marshal_arr_good _ ?_
    rw [jlistAllFinite_map]
    rw [List.all_eq_true] at h ⊢
    exact fun ex hex => exemplarJv_allFinite ex (h ex hex)

theorem quantilesToJSON_good (qvs : List QuantileValue)
    (h : qvs.all (fun q => q.quantile.isFinite && q.value.isFinite) = true) :
    GoodJson (quantilesToJSON qvs) := by
  rw [quantilesToJSON]
  by_cases hlen : qvs.length = 0
  · rw [if_pos hlen]
    exact emptyArr_good
  · rw [if_neg hlen]
    refine marshal_arr_good _ ?_
    rw [jlistAllFinite_map]
    rw [List.all_eq_true] at h ⊢
    intro q hq
    have := h q hq
    rw [Bool.and_eq_true] at this
    simp [allFinite_obj, jobjAllFinite, allFinite_double, this.1, this.2]

theorem jlistAllFinite_ints (xs : List Nat) :
    jlistAllFinite (xs.map fun v => Jval.int v) = true := by
  rw [jlistAllFinite_map]
  simp [allFinite_int]

theorem bucketCountsToJSON_good (values : List Nat) :
    GoodJson (bucketCountsToJSON values) := by
  rw [bucketCountsToJSON]
  by_cases hlen : values.length = 0
  · rw [if_pos hlen]
    exact emptyArr_good
  · rw [if_neg hlen]
    exact marshal_arr_good _ (jlistAllFinite_ints values)

theorem explicitBoundsToJSON_good (values : List GoFloat)
    (h : values.all GoFloat.isFinite = true) : GoodJson (explicitBoundsToJSON values) := by
  rw [explicitBoundsToJSON]
  by_cases hlen : values.length = 0
  · rw [if_pos hlen]
    exact emptyArr_good
  · rw [if_neg hlen]
    refine marshal_arr_good _ ?_
    rw [jlistAllFinite_map]
    rw [List.all_eq_true] at h ⊢
    intro v hv
    have := h v hv
    simpa [allFinite_double] using this

theorem exponentialBucketInfoToJSON_good (dp : ExpHistogramDataPoint) :
    GoodJson (exponentialBucketInfoToJSON dp) := by
  rw [exponentialBucketInfoToJSON]
  refine marshal_obj_good _ ?_
  simp only [jobjAllFinite, allFinite_obj, allFinite_arr, allFinite_int,
    jlistAllFinite_ints, Bool.and_true, Bool.true_and, Bool.and_self]

theorem findKey_setNumberValue (r : Row) (dp : NumberDataPoint) (c : String)
    (h1 : ¬"value_int" = c) (h2 : ¬"value_double" = c) :
    findKey (setNumberValue r dp) c = findKey r c := by
  cases hv : dp.value <;> simp [setNumberValue, hv, Row.set, findKey_setKey, h1, h2]

theorem tracesToRows_json_good (td : Traces) (h : Traces.finiteB td = true) :
    ∀ r ∈ tracesToRows td, ∀ c ∈ jsonColumns tracesSchema,
      ∃ s, findKey r c = some (.str s) ∧ GoodJson s := by
  intro r hr c hc
  simp only [tracesToRows, List.mem_flatMap, List.mem_map] at hr
  obtain ⟨rs, hrs, ss, hss, span, hspan, hrow⟩ := hr
  subst hrow
  rw [Traces.finiteB, List.all_eq_true] at h
  have h1 := h rs hrs
  rw [Bool.and_eq_true] at h1
  have h2 := List.all_eq_true.mp h1.2 ss hss
  rw [Bool.and_eq_true] at h2
  have h3 := List.all_eq_true.mp h2.2 span hspan
  rw [Span.finiteB, Bool.and_eq_true, Bool.and_eq_true] at h3
  obtain ⟨⟨hattrs, hevents⟩, hlinks⟩ := h3
  have hcols : jsonColumns tracesSchema =
      ["resource_attributes", "span_attributes", "events", "links",
       "instrumentation_scope"] := rfl
  rw [hcols] at hc
  simp only [List.mem_cons, List.not_mem_nil, or_false] at hc
  rcases hc with rfl | rfl | rfl | rfl | rfl
  · exact ⟨_, rfl, attributesToJSON_good _ h1.1⟩
  · exact ⟨_, rfl, attributesToJSON_good _ hattrs⟩
  · exact ⟨_, rfl, eventsToJSON_good _ hevents⟩
  · exact ⟨_, rfl, linksToJSON_good _ hlinks⟩
  · exact ⟨_, rfl, scopeToJSON_good _ h2.1⟩

theorem logsToRows_json_good (ld : Logs) (h : Logs.finiteB ld = true) :
    ∀ r ∈ logsToRows ld, ∀ c ∈ jsonColumns logsSchema,
      ∃ s, findKey r c = some (.str s) ∧ GoodJson s := by
  intro r hr c hc
  simp only [logsToRows, List.mem_flatMap, List.mem_map] at hr
  obtain ⟨rl, hrl, sl, hsl, lr, hlr, hrow⟩ := hr
  subst hrow
  rw [Logs.finiteB, List.all_eq_true] at h
  have h1 := h rl hrl
  rw [Bool.and_eq_true] at h1
  have h2 := List.all_eq_true.mp h1.2 sl hsl
  rw [Bool.and_eq_true] at h2
  have h3 := List.all_eq_true.mp h2.2 lr hlr
  rw [LogRecord.finiteB] at h3
  have hcols : jsonColumns logsSchema =
      ["resource_attributes", "log_attributes", "instrumentation_scope"] := rfl
  rw [hcols] at hc
  simp only [List.mem_cons, List.not_mem_nil, or_false] at hc
  rcases hc with rfl | rfl | rfl
  · exact ⟨_, rfl, attributesToJSON_good _ h1.1⟩
  · exact ⟨_, rfl, attributesToJSON_good _ h3⟩
  · exact ⟨_, rfl, scopeToJSON_good _ h2.1⟩

theorem metricToRows_json_good (m : Metric) (ra : AttrMap) (ru : String)
    (sc : InstrumentationScope) (su : String) (hra : attrsFinite ra = true)
    (hsc : attrsFinite sc.attributes = true) (hm : Metric.finiteB m = true) :
    ∀ r ∈ metricToRows m ra ru sc su, ∀ c ∈ jsonColumns metricsSchema,
      ∃ s, findKey r c = some (.str s) ∧ GoodJson s := by
  intro r hr c hc
  have hcols : jsonColumns metricsSchema =
      ["exemplars", "quantiles", "bucket_counts", "explicit_bounds",
       "resource_attributes", "datapoint_attributes", "instrumentation_scope"] := rfl
  rw [hcols] at hc
  simp only [List.mem_cons, List.not_mem_nil, or_false] at hc
  cases hdata : m.data with
  | gauge dps =>
    rw [metricToRows, hdata] at hr
    simp only [gaugeToRows, numberDataPointsToRows, List.mem_map] at hr
    obtain ⟨dp, hdp, hrow⟩ := hr
    subst hrow
    simp only [Metric.finiteB, hdata] at hm
    have hdpf := List.all_eq_true.mp hm dp hdp
    rw [NumberDataPoint.finiteB, Bool.and_eq_true] at hdpf
    rcases hc with rfl | rfl | rfl | rfl | rfl | rfl | rfl
    · refine ⟨_, ?_, exemplarsToJSON_good _ hdpf.2⟩
      simp [findKey_setNumberValue, Row.set, findKey_setKey]
    · refine ⟨_, ?_, emptyArr_good⟩
      simp [findKey_setNumberValue, Row.set, findKey_setKey, setCommonDataPointFields,
        cloneMetricRow, metricBaseRow, findKey]
    · refine ⟨_, ?_, emptyArr_good⟩
      simp [findKey_setNumberValue, Row.set, findKey_setKey, setCommonDataPointFields,
        cloneMetricRow, metricBaseRow, findKey]
    · refine ⟨_, ?_, emptyArr_good⟩
      simp [findKey_setNumberValue, Row.set, findKey_setKey, setCommonDataPointFields,
        cloneMetricRow, metricBaseRow, findKey]
    · refine ⟨_, ?_, attributesToJSON_good _ hra⟩
      simp [findKey_setNumberValue, Row.set, findKey_setKey, setCommonDataPointFields,
        cloneMetricRow, metricBaseRow, findKey]
    · refine ⟨_, ?_, attributesToJSON_good _ hdpf.1⟩
      simp [findKey_setNumberValue, Row.set, findKey_setKey, setCommonDataPointFields]
    · refine ⟨_, ?_, scopeToJSON_good _ hsc⟩
      simp [findKey_setNumberValue, Row.set, findKey_setKey, setCommonDataPointFields,
        cloneMetricRow, metricBaseRow, findKey]
  | sum aggT mono dps =>
    rw [metricToRows, hdata] at hr
    simp only [sumToRows, numberDataPointsToRows, List.mem_map] at hr
    obtain ⟨dp, hdp, hrow⟩ := hr
    subst hrow
    simp only [Metric.finiteB, hdata] at hm
    have hdpf := List.all_eq_true.mp hm dp hdp
    rw [NumberDataPoint.finiteB, Bool.and_eq_true] at hdpf
    rcases hc with rfl | rfl | rfl | rfl | rfl | rfl | rfl
    · refine ⟨_, ?_, exemplarsToJSON_good _ hdpf.2⟩
      simp [findKey_setNumberValue, Row.set, findKey_setKey]
    · refine ⟨_, ?_, emptyArr_good⟩
      simp [findKey_setNumberValue, Row.set, findKey_setKey, setCommonDataPointFields,
        cloneMetricRow, metricBaseRow, findKey]
    · refine ⟨_, ?_, emptyArr_good⟩
      simp [findKey_setNumberValue, Row.set, findKey_setKey, setCommonDataPointFields,
        cloneMetricRow, metricBaseRow, findKey]
    · refine ⟨_, ?_, emptyArr_good⟩
      simp [findKey_setNumberValue, Row.set, findKey_setKey, setCommonDataPointFields,
        cloneMetricRow, metricBaseRow, findKey]
    · refine ⟨_, ?_, attributesToJSON_good _ hra⟩
      simp [findKey_setNumberValue, Row.set, findKey_setKey, setCommonDataPointFields,
        cloneMetricRow, metricBaseRow, findKey]
    · refine ⟨_, ?_, attributesToJSON_good _ hdpf.1⟩
      simp [findKey_setNumberValue, Row.set, findKey_setKey, setCommonDataPointFields]
    · refine ⟨_, ?_, scopeToJSON_good _ hsc⟩
      simp [findKey_setNumberValue, Row.set, findKey_setKey, setCommonDataPointFields,
        cloneMetricRow, metricBaseRow, findKey]
  | histogram aggT dps =>
    rw [metricToRows, hdata] at hr
    simp only [histogramToRows, List.mem_map] at hr
    obtain ⟨dp, hdp, hrow⟩ := hr
    subst hrow
    simp only [Metric.finiteB, hdata] at hm
    have hdpf := List.all_eq_true.mp hm dp hdp
    rw [HistogramDataPoint.finiteB, Bool.and_eq_true, Bool.and_eq_true] at hdpf
    obtain ⟨⟨hattrs, hexs⟩, hbounds⟩ := hdpf
    rcases hc with rfl | rfl | rfl | rfl | rfl | rfl | rfl
    · refine ⟨_, ?_, exemplarsToJSON_good _ hexs⟩
      simp [Row.set, findKey_setKey, findKey_maybeSetFloat]
    · refine ⟨_, ?_, emptyArr_good⟩
      simp [Row.set, findKey_setKey, findKey_maybeSetFloat, setCommonDataPointFields,
        cloneMetricRow, metricBaseRow, findKey]
    · refine ⟨_, ?_, bucketCountsToJSON_good dp.bucketCounts⟩
      simp [Row.set, findKey_setKey]
    · refine ⟨_, ?_, explicitBoundsToJSON_good _ hbounds⟩
      simp [Row.set, findKey_setKey]
    · refine ⟨_, ?_, attributesToJSON_good _ hra⟩
      simp [Row.set, findKey_setKey, findKey_maybeSetFloat, setCommonDataPointFields,
        cloneMetricRow, metricBaseRow, findKey]
    · refine ⟨_, ?_, attributesToJSON_good _ hattrs⟩
      simp [Row.set, findKey_setKey, findKey_maybeSetFloat, setCommonDataPointFields]
    · refine ⟨_, ?_, scopeToJSON_good _ hsc⟩
      simp [Row.set, findKey_setKey, findKey_maybeSetFloat, setCommonDataPointFields,
        cloneMetricRow, metricBaseRow, findKey]
  | summary dps =>
    rw [metricToRows, hdata] at hr
    simp only [summaryToRows, List.mem_map] at hr
    obtain ⟨dp, hdp, hrow⟩ := hr
    subst hrow
    simp only [Metric.finiteB, hdata] at hm
    have hdpf := List.all_eq_true.mp hm dp hdp
    rw [SummaryDataPoint.finiteB, Bool.and_eq_true] at hdpf
    rcases hc with rfl | rfl | rfl | rfl | rfl | rfl | rfl
    · refine ⟨_, ?_, emptyArr_good⟩
      simp [Row.set, findKey_setKey, setCommonDataPointFields,
        cloneMetricRow, metricBaseRow, findKey]
    · refine ⟨_, ?_, quantilesToJSON_good _ hdpf.2⟩
      simp [Row.set, findKey_setKey]
    · refine ⟨_, ?_, emptyArr_good⟩
      simp [Row.set, findKey_setKey, setCommonDataPointFields,
        cloneMetricRow, metricBaseRow, findKey]
    · refine ⟨_, ?_, emptyArr_good⟩
      simp [Row.set, findKey_setKey, setCommonDataPointFields,
        cloneMetricRow, metricBaseRow, findKey]
    · refine ⟨_, ?_, attributesToJSON_good _ hra⟩
      simp [Row.set, findKey_setKey, setCommonDataPointFields,
        cloneMetricRow, metricBaseRow, findKey]
    · refine ⟨_, ?_, attributesToJSON_good _ hdpf.1⟩
      simp [Row.set, findKey_setKey, setCommonDataPointFields]
    · refine ⟨_, ?_, scopeToJSON_good _ hsc⟩
      simp [Row.set, findKey_setKey, setCommonDataPointFields,
        cloneMetricRow, metricBaseRow, findKey]
  | expHistogram aggT dps =>
    rw [metricToRows, hdata] at hr
    simp only [exponentialHistogramToRows, List.mem_map] at hr
    obtain ⟨dp, hdp, hrow⟩ := hr
    subst hrow
    simp only [Metric.finiteB, hdata] at hm
    have hdpf := List.all_eq_true.mp hm dp hdp
    rw [ExpHistogramDataPoint.finiteB, Bool.and_eq_true] at hdpf
    rcases hc with rfl | rfl | rfl | rfl | rfl | rfl | rfl
    · refine ⟨_, ?_, exemplarsToJSON_good _ hdpf.2⟩
      simp [Row.set, findKey_setKey, findKey_maybeSetFloat]
    · refine ⟨_, ?_, emptyArr_good⟩
      simp [Row.set, findKey_setKey, findKey_maybeSetFloat, setCommonDataPointFields,
        cloneMetricRow, metricBaseRow, findKey]
    · refine ⟨_, ?_, exponentialBucketInfoToJSON_good dp⟩
      simp [Row.set, findKey_setKey]
    · refine ⟨_, ?_, emptyArr_good⟩
      simp [Row.set, findKey_setKey, findKey_maybeSetFloat, setCommonDataPointFields,
        cloneMetricRow, metricBaseRow, findKey]
    · refine ⟨_, ?_, attributesToJSON_good _ hra⟩
      simp [Row.set, findKey_setKey, findKey_maybeSetFloat, setCommonDataPointFields,
        cloneMetricRow, metricBaseRow, findKey]
    · refine ⟨_, ?_, attributesToJSON_good _ hdpf.1⟩
      simp [Row.set, findKey_setKey, findKey_maybeSetFloat, setCommonDataPointFields]
    · refine ⟨_, ?_, scopeToJSON_good _ hsc⟩
      simp [Row.set, findKey_setKey, findKey_maybeSetFloat, setCommonDataPointFields,
        cloneMetricRow, metricBaseRow, findKey]
  | empty =>
    rw [metricToRows, hdata] at hr
    simp at hr

/-- Claim C6, counterexample: with a NaN double among the resource
attributes, the single projected trace row holds the empty string — not
valid JSON — in its `resource_attributes` JSON column, refuting "every
JSON-typed column holds syntactically valid JSON text ... and no JSON
column ever holds the empty string". -/
theorem c6_counterexample :
    (tracesToRows c6td).map (fun r => findKey r "resource_attributes") =
      [some (.str "")] := by
  decide

/-- Claim C6, amended: empty attribute maps render as `\x7b\x7d` and empty
sequences (events, links, exemplars, quantiles, histogram bucket-count and
explicit-bound arrays) as `[]`; and provided every floating-point value
reaching a JSON-marshalled position of the batch is finite (no NaN or
infinity — on such values Go's `json.Marshal` fails and the discarded error
leaves an empty string), every JSON-typed column of every row produced by
any of the three projection functions holds syntactically valid JSON text,
never the empty string and never null (the column is always a string
value). -/
theorem c6_amended :
    (attributesToJSON [] = "\x7b\x7d" ∧ eventsToJSON [] = "[]" ∧ linksToJSON [] = "[]" ∧
     exemplarsToJSON [] = "[]" ∧ quantilesToJSON [] = "[]" ∧
     bucketCountsToJSON [] = "[]" ∧ explicitBoundsToJSON [] = "[]") ∧
    (∀ td : Traces, Traces.finiteB td = true → ∀ r ∈ tracesToRows td,
      ∀ c ∈ jsonColumns tracesSchema, ∃ s, findKey r c = some (.str s) ∧ GoodJson s) ∧
    (∀ md : Metrics, Metrics.finiteB md = true → ∀ r ∈ metricsToRows md,
      ∀ c ∈ jsonColumns metricsSchema, ∃ s, findKey r c = some (.str s) ∧ GoodJson s) ∧
    (∀ ld : Logs, Logs.finiteB ld = true → ∀ r ∈ logsToRows ld,
      ∀ c ∈ jsonColumns logsSchema, ∃ s, findKey r c = some (.str s) ∧ GoodJson s) := by
  refine ⟨⟨rfl, rfl, rfl, rfl, rfl, rfl, rfl⟩, tracesToRows_json_good, ?_,
    logsToRows_json_good⟩
  intro md hmd r hr c hc
  simp only [metricsToRows, List.mem_flatMap] at hr
  obtain ⟨rm, hrm, sm, hsm, m, hmm, hmem⟩ := hr
  rw [Metrics.finiteB, List.all_eq_true] at hmd
  have h1 := hmd rm hrm
  rw [Bool.and_eq_true] at h1
  have h2 := List.all_eq_true.mp h1.2 sm hsm
  rw [Bool.and_eq_true] at h2
  have h3 := List.all_eq_true.mp h2.2 m hmm
  exact metricToRows_json_good m rm.resource.attributes rm.schemaUrl sm.scope
    sm.schemaUrl h1.1 h2.1 h3 r hmem c hc

/-- Witness for `c6_amended`: its hypotheses hold at a concrete all-finite
batch, row, and JSON column. -/
theorem c6_witness :
    ∃ s, findKey ((tracesToRows c6wtd).headD []) "span_attributes" =
      some (.str s) ∧ GoodJson s :=
  c6_amended.2.1 c6wtd (by decide) ((tracesToRows c6wtd).headD []) (by decide)
    "span_attributes" (by decide)

end OtelBQ
